import Mathlib

/-!
Arcus.MessageTypeStore

A shallow embedding of `src/MessageTypeStore.cpp` (libArcus): the diagnostics
collector, the two registry tables of `MessageTypeStore::Private`, and the
operations `hasType`, `createMessage`, `getMessageTypeId`,
`registerMessageType` and `registerAllMessageTypes`.

Conventions.
* A C++ pointer that may be null is an `Option`; `none` is the null pointer.
* An operation that can dereference a pointer returns an `Option`; the outer
  `none` stands for the undefined behaviour of dereferencing a null pointer.
* `std::unordered_map` is an association list with the three accesses the
  source uses: `find`, reading `operator[]` (which inserts a value-initialised
  entry for a missing key) and assignment through `operator[]`.
* The protobuf library and `std::hash` are not part of the repository; they
  are the fields of `Lib`, over which every definition is parametric.
-/

namespace Arcus

/-! ## std::unordered_map -/

/-- Association-list model of `std::unordered_map<κ, ν>`. -/
abbrev UMap (κ ν : Type) := List (κ × ν)

namespace UMap

/-- Model of `m.find(k)`: `none` is `m.end()`, `some v` an iterator to `(k, v)`. -/
def find {κ ν : Type} [DecidableEq κ] : UMap κ ν → κ → Option ν
  | [], _ => none
  | (k', v) :: rest, k => if k' = k then some v else find rest k

/-- Model of `m[k] = v`: the entry of `k` is overwritten when there is one and
created otherwise. -/
def assign {κ ν : Type} [DecidableEq κ] : UMap κ ν → κ → ν → UMap κ ν
  | [], k, v => [(k, v)]
  | (k', v') :: rest, k, v =>
    if k' = k then (k', v) :: rest else (k', v') :: assign rest k v

/-- Model of reading `m[k]`: the stored value when `k` is present; otherwise a
value-initialised entry is inserted for `k` and its value returned. -/
def index {κ ν : Type} [DecidableEq κ] [Inhabited ν] (m : UMap κ ν) (k : κ) : ν × UMap κ ν :=
  match find m k with
  | some v => (v, m)
  | none => (default, assign m k default)

/-- The keys of the map, one per entry. -/
def keys {κ ν : Type} (m : UMap κ ν) : List κ :=
  m.map Prod.fst

end UMap

/-! ## protobuf objects -/

/-- A `google::protobuf::Descriptor` object: `addr` is the identity of the
object (the tables key on the pointer), `full_name` its fully-qualified name. -/
structure Descriptor where
  addr : Nat
  full_name : String
  deriving DecidableEq, Repr

/-- A `google::protobuf::Message` object (a prototype or an instance): `addr`
is the identity of the object, `typeName` is what `GetTypeName()` returns and
`descriptor` what `GetDescriptor()` returns. -/
structure Message where
  addr : Nat
  typeName : String
  descriptor : Descriptor
  deriving DecidableEq, Repr

/-- A possibly-null pointer to a message (`const Message*`, `MessagePtr`). -/
abbrev MessagePtr := Option Message

/-- A `google::protobuf::FileDescriptor`: the top-level message types of one
compiled file, in declaration order. -/
structure FileDescriptor where
  name : String
  message_types : List Descriptor
  deriving DecidableEq, Repr

/-- Model of `FileDescriptor::message_type_count()`. -/
def FileDescriptor.message_type_count (fd : FileDescriptor) : Nat :=
  fd.message_types.length

/-- Model of `FileDescriptor::message_type(i)`, defined for `i < message_type_count()`. -/
def FileDescriptor.message_type (fd : FileDescriptor) (i : Nat)
    (h : i < fd.message_type_count) : Descriptor :=
  fd.message_types.get ⟨i, h⟩

/-- One call of `MultiFileErrorCollector::AddError` made by the importer. -/
structure Diagnostic where
  filename : String
  line : Int
  column : Int
  message : String
  deriving DecidableEq, Repr

/-- What one call of `Importer::Import` does: the `AddError` calls it makes on
the collector, in order, and the file descriptor it returns (null on failure). -/
structure ImportResult where
  errors : List Diagnostic
  descriptor : Option FileDescriptor
  deriving DecidableEq, Repr

/-- A `google::protobuf::compiler::DiskSourceTree`: its path mappings. -/
structure DiskSourceTree where
  mappings : List (String × String) := []
  deriving DecidableEq, Repr

/-- Model of `DiskSourceTree::MapPath(virtual_path, disk_path)`. -/
def DiskSourceTree.MapPath (t : DiskSourceTree) (virtual_path disk_path : String) :
    DiskSourceTree :=
  { mappings := t.mappings ++ [(virtual_path, disk_path)] }

/-- A `google::protobuf::compiler::Importer`: the files passed to `Import` so
far, oldest first (its descriptor pool is a function of these). -/
structure Importer where
  imported : List String := []
  deriving DecidableEq, Repr

/-- A `google::protobuf::DynamicMessageFactory` object. -/
structure DynamicMessageFactory where
  deriving DecidableEq, Repr

/-- The library code the store calls: `std::hash<std::string>`, `Message::New`,
`DynamicMessageFactory::GetPrototype` and `Importer::Import`. -/
structure Lib where
  hash : String → Nat
  New : Message → Message
  GetPrototype : Descriptor → Message
  Import : Importer → String → ImportResult

/-- The expression `std::hash<std::string>{}(name)` stored into a `uint`: the
`size_t` hash value is truncated to 32 bits. -/
def hashName (L : Lib) (name : String) : Nat :=
  L.hash name % 4294967296

/-! ## ErrorCollector -/

/-- The class `ErrorCollector`: the text written to `_stream` so far and
`_error_count`. The counter starts at 0 and is only ever incremented, so it is
a natural number (overflowing an `int` is undefined and not modelled). -/
structure ErrorCollector where
  _stream : String := ""
  _error_count : Nat := 0
  deriving DecidableEq, Repr

namespace ErrorCollector

/-- Model of `ErrorCollector::AddError`. -/
def AddError (c : ErrorCollector) (filename : String) (line column : Int)
    (message : String) : ErrorCollector :=
  { _stream := c._stream ++ "[" ++ filename ++ " (" ++ toString line ++ ","
      ++ toString column ++ ")] " ++ message ++ "\n"
    _error_count := c._error_count + 1 }

/-- Model of `ErrorCollector::getAllErrors`. -/
def getAllErrors (c : ErrorCollector) : String :=
  c._stream

/-- Model of `ErrorCollector::getErrorCount`. -/
def getErrorCount (c : ErrorCollector) : Nat :=
  c._error_count

/-- The collector after the importer has reported `ds`, in order. -/
def report (c : ErrorCollector) (ds : List Diagnostic) : ErrorCollector :=
  ds.foldl (fun acc e => acc.AddError e.filename e.line e.column e.message) c

end ErrorCollector

/-! ## MessageTypeStore -/

/-- The class `MessageTypeStore::Private`. -/
structure Private where
  message_types : UMap Nat MessagePtr := []
  message_type_mapping : UMap Descriptor Nat := []
  error_collector : Option ErrorCollector := none
  source_tree : Option DiskSourceTree := none
  importer : Option Importer := none
  message_factory : Option DynamicMessageFactory := none
  deriving DecidableEq, Repr

/-- The constructor `MessageTypeStore::MessageTypeStore()`: a fresh `Private`. -/
def MessageTypeStore : Private :=
  {}

/-- Model of `MessageTypeStore::hasType(uint type_id)`. -/
def hasType (d : Private) (type_id : Nat) : Bool :=
  if (UMap.find d.message_types type_id).isSome then true else false

/-- Model of `MessageTypeStore::hasType(const std::string& type_name)`. -/
def hasTypeByName (L : Lib) (d : Private) (type_name : String) : Bool :=
  let type_id := hashName L type_name
  hasType d type_id

/-- Model of `MessageTypeStore::createMessage(uint type_id)`: the returned
pointer and the state afterwards (the table is read with `operator[]`). The
outer `none` is the call of `New()` through a null stored pointer. -/
def createMessage (L : Lib) (d : Private) (type_id : Nat) : Option (MessagePtr × Private) :=
  if !hasType d type_id then
    some (none, d)
  else
    let r := UMap.index d.message_types type_id
    match r.1 with
    | none => none
    | some prototype => some (some (L.New prototype), { d with message_types := r.2 })

/-- Model of `MessageTypeStore::createMessage(const std::string& type_name)`. -/
def createMessageByName (L : Lib) (d : Private) (type_name : String) :
    Option (MessagePtr × Private) :=
  let type_id := hashName L type_name
  createMessage L d type_id

/-- Model of `MessageTypeStore::getMessageTypeId` (a non-const member) on a
non-null message: the returned id and the state afterwards. -/
def getMessageTypeId (L : Lib) (d : Private) (message : Message) : Nat × Private :=
  (hashName L message.typeName, d)

/-- Model of `MessageTypeStore::registerMessageType` on a non-null prototype:
the returned flag and the state afterwards. -/
def registerMessageType (L : Lib) (d : Private) (message_type : Message) : Bool × Private :=
  let type_id := hashName L message_type.typeName
  if hasType d type_id then
    (false, d)
  else
    (true,
      { d with
        message_types := UMap.assign d.message_types type_id (some message_type)
        message_type_mapping :=
          UMap.assign d.message_type_mapping message_type.descriptor type_id })

/-- Lines 128-134 of `registerAllMessageTypes`: the collector, the source tree
and the importer are created when there is no importer yet. -/
def ensureImporter (d : Private) : Private :=
  if d.importer.isNone then
    { d with
      error_collector := some {}
      source_tree := some (DiskSourceTree.MapPath {} "/" "/")
      importer := some {} }
  else d

/-- Line 136 of `registerAllMessageTypes` together with the read of the
collector on line 137: the import is run, its diagnostics land in the
collector, and the state, the collector and the returned descriptor pointer
are handed on. `none` when the importer or the collector pointer is null. -/
def importFile (L : Lib) (d : Private) (file_name : String) :
    Option (Private × ErrorCollector × Option FileDescriptor) :=
  match d.importer, d.error_collector with
  | some imp, some ec =>
    let r := L.Import imp file_name
    let ec' := ec.report r.errors
    some ({ d with
            error_collector := some ec'
            importer := some { imported := imp.imported ++ [file_name] } },
          ec', r.descriptor)
  | _, _ => none

/-- Lines 142-145 of `registerAllMessageTypes`: the message factory is created
when there is none yet. -/
def ensureFactory (d : Private) : Private :=
  if d.message_factory.isNone then { d with message_factory := some {} } else d

/-- The body of the loop of `registerAllMessageTypes` (lines 149-156) for one
message type descriptor. -/
def registerDescriptor (L : Lib) (d : Private) (message_type_descriptor : Descriptor) :
    Private :=
  let message_type := L.GetPrototype message_type_descriptor
  let type_id := hashName L message_type.typeName
  { d with
    message_types := UMap.assign d.message_types type_id (some message_type)
    message_type_mapping :=
      UMap.assign d.message_type_mapping message_type_descriptor type_id }

/-- The loop of `registerAllMessageTypes` (lines 147-157), entered with index `i`. -/
def registerLoop (L : Lib) (descriptor : FileDescriptor) (i : Nat) (d : Private) : Private :=
  if h : i < descriptor.message_type_count then
    registerLoop L descriptor (i + 1)
      (registerDescriptor L d (descriptor.message_type i h))
  else d
termination_by descriptor.message_type_count - i

/-- Model of `MessageTypeStore::registerAllMessageTypes`: the returned flag
and the state afterwards; `none` when a null pointer is dereferenced. -/
def registerAllMessageTypes (L : Lib) (d : Private) (file_name : String) :
    Option (Bool × Private) :=
  match importFile L (ensureImporter d) file_name with
  | none => none
  | some (d1, ec, descriptor) =>
    if ec.getErrorCount > 0 then
      some (false, d1)
    else
      match descriptor with
      | none => none
      | some fd => some (true, registerLoop L fd 0 (ensureFactory d1))

/-- The loop of `registerAllMessageTypes` again, with the values taken by the
index `i` in the loop body recorded in `visited`, oldest first. -/
def registerLoopTrace (L : Lib) (descriptor : FileDescriptor) (i : Nat) (d : Private)
    (visited : List Nat) : Private × List Nat :=
  if h : i < descriptor.message_type_count then
    registerLoopTrace L descriptor (i + 1)
      (registerDescriptor L d (descriptor.message_type i h)) (visited ++ [i])
  else (d, visited)
termination_by descriptor.message_type_count - i

/-- The text `dumpMessageTypes` writes for the entries of the id table, in
the order of the list; `none` when a stored pointer is null. -/
def dumpEntries : UMap Nat MessagePtr → Option String
  | [] => some ""
  | (_, none) :: _ => none
  | (type_id, some message) :: rest =>
    (dumpEntries rest).map (fun out =>
      "Type ID: " ++ toString type_id ++ " Type Name: " ++ message.typeName ++ "\n" ++ out)

/-- Model of `MessageTypeStore::dumpMessageTypes`: the text written to
`std::cout` and the state afterwards. -/
def dumpMessageTypes (d : Private) : Option (String × Private) :=
  (dumpEntries d.message_types).map (fun out => (out, d))

/-- The error count of the store's collector, 0 while there is no collector. -/
def errorCount (d : Private) : Nat :=
  match d.error_collector with
  | some c => c.getErrorCount
  | none => 0

/-! ## Sample objects

A small concrete world used to evaluate the definitions: two descriptors of a
schema file `shapes.proto`, their factory prototypes, a compiled-in prototype
of `Circle`, and a library whose importer knows `shapes.proto` only. -/

/-- Descriptor of the message type `Circle` in the importer pool. -/
def circleDescriptor : Descriptor := ⟨1, "Circle"⟩

/-- Descriptor of the message type `Square` in the importer pool. -/
def squareDescriptor : Descriptor := ⟨2, "Square"⟩

/-- Descriptor of the compiled-in message type `Circle` (generated pool). -/
def generatedCircleDescriptor : Descriptor := ⟨3, "Circle"⟩

/-- Default instance of the compiled-in message type `Circle`. -/
def generatedCircle : Message := ⟨30, "Circle", generatedCircleDescriptor⟩

/-- A second compiled-in prototype named `Circle`. -/
def otherCircle : Message := ⟨31, "Circle", generatedCircleDescriptor⟩

/-- The compiled file `shapes.proto`: message types `Circle` and `Square`. -/
def shapesFile : FileDescriptor := ⟨"shapes.proto", [circleDescriptor, squareDescriptor]⟩

/-- A library instance: a polynomial string hash, `New` allocating at a
shifted address, the dynamic prototype of a descriptor carrying its name, and
an importer that compiles `shapes.proto` cleanly and reports one error for
any other file. -/
def sampleLib : Lib where
  hash := fun name => name.data.foldl (fun h c => h * 31 + c.toNat) 0
  New := fun m => { m with addr := m.addr + 1000 }
  GetPrototype := fun desc => ⟨desc.addr + 100, desc.full_name, desc⟩
  Import := fun _ file_name =>
    if file_name = "shapes.proto" then ⟨[], some shapesFile⟩
    else ⟨[⟨file_name, -1, 0, "File not found."⟩], none⟩

/-- The store after `registerMessageType(generatedCircle)` on a fresh store. -/
def circleStore : Private :=
  (registerMessageType sampleLib MessageTypeStore generatedCircle).2

/-- The store after `registerAllMessageTypes("broken.proto")` on a fresh
store: the import reported one error. -/
def failedStore : Private :=
  { error_collector :=
      some { _stream := "[broken.proto (-1,0)] File not found.\n", _error_count := 1 }
    source_tree := some { mappings := [("/", "/")] }
    importer := some { imported := ["broken.proto"] } }

/-- The store after `registerMessageType(generatedCircle)` followed by a
successful `registerAllMessageTypes("shapes.proto")`. -/
def overwrittenStore : Private :=
  { message_types :=
      [(2018617584, some (sampleLib.GetPrototype circleDescriptor)),
       (2484159805, some (sampleLib.GetPrototype squareDescriptor))]
    message_type_mapping :=
      [(generatedCircleDescriptor, 2018617584), (circleDescriptor, 2018617584),
       (squareDescriptor, 2484159805)]
    error_collector := some {}
    source_tree := some { mappings := [("/", "/")] }
    importer := some { imported := ["shapes.proto"] }
    message_factory := some {} }

/-! ## Sequences of registration calls -/

/-- A registration call on the store. -/
inductive Call where
  | registerMessageType (message_type : Message)
  | registerAllMessageTypes (file_name : String)
  deriving DecidableEq, Repr

/-- The store after one registration call (the returned flag is dropped);
`none` when the call dereferences a null pointer. -/
def Call.apply (L : Lib) (d : Private) : Call → Option Private
  | Call.registerMessageType message_type =>
    some (Arcus.registerMessageType L d message_type).2
  | Call.registerAllMessageTypes file_name =>
    (Arcus.registerAllMessageTypes L d file_name).map Prod.snd

/-- The store after a sequence of registration calls, first call first. -/
def runCalls (L : Lib) (d : Private) : List Call → Option Private
  | [] => some d
  | c :: rest => (Call.apply L d c).bind (fun d1 => runCalls L d1 rest)

/-- The stores reachable from the empty registry by registration calls. -/
def Reachable (L : Lib) (d : Private) : Prop :=
  ∃ calls, runCalls L MessageTypeStore calls = some d

/-- Consistency of the two tables: every entry `id -> p` of the id table has
`descriptor(p) -> id` in the reverse table, and for every entry `desc -> id`
of the reverse table the id table holds under `id` a prototype whose
descriptor is `desc`. -/
def tablesConsistent (d : Private) : Prop :=
  (∀ id p, UMap.find d.message_types id = some (some p) →
    UMap.find d.message_type_mapping p.descriptor = some id) ∧
  (∀ desc id, UMap.find d.message_type_mapping desc = some id →
    ∃ p, UMap.find d.message_types id = some (some p) ∧ p.descriptor = desc)

/-- What protobuf guarantees of a message: `GetTypeName()` is the full name
of `GetDescriptor()`. -/
def Message.wellFormed (m : Message) : Prop :=
  m.typeName = m.descriptor.full_name

/-- A registration call whose prototype argument, if any, is well formed. -/
def Call.wellFormed : Call → Prop
  | Call.registerMessageType message_type => message_type.wellFormed
  | Call.registerAllMessageTypes _ => True

/-! ## Sequences of arbitrary operations -/

/-- A call of a public member function of `MessageTypeStore`. -/
inductive Operation where
  | hasType (type_id : Nat)
  | hasTypeByName (type_name : String)
  | createMessage (type_id : Nat)
  | createMessageByName (type_name : String)
  | getMessageTypeId (message : Message)
  | registerMessageType (message_type : Message)
  | registerAllMessageTypes (file_name : String)
  | dumpMessageTypes
  deriving DecidableEq, Repr

/-- The operations the specification calls read-only. -/
def Operation.readOnly : Operation → Bool
  | Operation.hasType _ => true
  | Operation.hasTypeByName _ => true
  | Operation.createMessage _ => true
  | Operation.createMessageByName _ => true
  | Operation.getMessageTypeId _ => true
  | _ => false

/-- The store after one operation (the returned value is dropped); `none`
when the operation dereferences a null pointer. The two `hasType` overloads
are `const` and only call `find`, so they hand the store back. -/
def Operation.run (L : Lib) (d : Private) : Operation → Option Private
  | Operation.hasType _ => some d
  | Operation.hasTypeByName _ => some d
  | Operation.createMessage type_id => (Arcus.createMessage L d type_id).map Prod.snd
  | Operation.createMessageByName type_name =>
    (Arcus.createMessageByName L d type_name).map Prod.snd
  | Operation.getMessageTypeId message => some (Arcus.getMessageTypeId L d message).2
  | Operation.registerMessageType message_type =>
    some (Arcus.registerMessageType L d message_type).2
  | Operation.registerAllMessageTypes file_name =>
    (Arcus.registerAllMessageTypes L d file_name).map Prod.snd
  | Operation.dumpMessageTypes => (Arcus.dumpMessageTypes d).map Prod.snd

/-- The store after a sequence of operations, first operation first. -/
def runOperations (L : Lib) (d : Private) : List Operation → Option Private
  | [] => some d
  | op :: rest => (Operation.run L d op).bind (fun d1 => runOperations L d1 rest)

/-- The state in which bulk registration is stuck: there is an importer and
the collector holds at least one error. -/
def stickyFailure (d : Private) : Prop :=
  d.importer.isSome = true ∧ 0 < errorCount d

/-- The tables are keyed by hash: every entry `id -> p` of the id table holds
a prototype (not a null pointer) with `id = hash(p.typeName)`, and every entry
`desc -> id` of the reverse table has `id = hash(desc.full_name)`. -/
def hashKeyed (L : Lib) (d : Private) : Prop :=
  (∀ id ptr, (id, ptr) ∈ d.message_types → ∃ p, ptr = some p ∧ id = hashName L p.typeName) ∧
  (∀ desc id, (desc, id) ∈ d.message_type_mapping → id = hashName L desc.full_name)

/-! ## Colliding names

In `sampleLib` the names `Aa` and `BB` have the same hash, 2112. -/

/-- Descriptor of the message type `Aa`. -/
def aaDescriptor : Descriptor := ⟨4, "Aa"⟩

/-- Descriptor of the message type `BB`. -/
def bbDescriptor : Descriptor := ⟨5, "BB"⟩

/-- A prototype of the message type `Aa`. -/
def aaMessage : Message := ⟨40, "Aa", aaDescriptor⟩

/-- A prototype of the message type `BB`. -/
def bbMessage : Message := ⟨50, "BB", bbDescriptor⟩

/-- The compiled file `alias.proto`: message types `Aa` and `BB`, in this order. -/
def aliasFile : FileDescriptor := ⟨"alias.proto", [aaDescriptor, bbDescriptor]⟩

/-- The library `sampleLib` with an importer that also compiles `alias.proto`
cleanly. -/
def aliasLib : Lib :=
  { sampleLib with
    Import := fun imp file_name =>
      if file_name = "alias.proto" then ⟨[], some aliasFile⟩
      else sampleLib.Import imp file_name }

/-- The store after a successful `registerAllMessageTypes("alias.proto")` on a
fresh store. -/
def aliasStore : Private :=
  { message_types := [(2112, some (aliasLib.GetPrototype bbDescriptor))]
    message_type_mapping := [(aaDescriptor, 2112), (bbDescriptor, 2112)]
    error_collector := some {}
    source_tree := some { mappings := [("/", "/")] }
    importer := some { imported := ["alias.proto"] }
    message_factory := some {} }

/-- The store after `registerMessageType(aaMessage)` on a fresh store. -/
def aaStore : Private :=
  (registerMessageType sampleLib MessageTypeStore aaMessage).2

/-! ## The specification's reading of the queries -/

/-- The specification's report line for one diagnostic:
`[file (line,col)] message` followed by a newline. -/
def Spec.formatEntry (e : Diagnostic) : String :=
  "[" ++ e.filename ++ " (" ++ toString e.line ++ "," ++ toString e.column ++ ")] "
    ++ e.message ++ "\n"

/-- The specification's `formattedReport()`: the report lines of the entries
concatenated in arrival order. -/
def Spec.formattedReport (ds : List Diagnostic) : String :=
  String.join (ds.map Spec.formatEntry)

/-- The last top-level message type of the file, in declaration order, whose
prototype's type name hashes to `id`, if there is one. -/
def Spec.lastWithId (L : Lib) (fd : FileDescriptor) (id : Nat) : Option Descriptor :=
  fd.message_types.reverse.find?
    (fun desc => decide (hashName L (L.GetPrototype desc).typeName = id))


/-- The specification's `hasType(id)`: "true iff the registry table contains
`id`", that is, some entry of the id table has key `id`. -/
def Spec.tableContains (d : Private) (id : Nat) : Prop :=
  ∃ prototype, (id, prototype) ∈ d.message_types

/-- The specification's `hasType(name)`: "computes `id = hash(name)` and
delegates". -/
def Spec.tableContainsName (L : Lib) (d : Private) (name : String) : Prop :=
  Spec.tableContains d (hashName L name)

/-! ## Lemmas on the map model -/

theorem UMap.find_assign {κ ν : Type} [DecidableEq κ] (m : UMap κ ν) (k : κ) (v : ν) (k' : κ) :
    UMap.find (UMap.assign m k v) k' = if k' = k then some v else UMap.find m k' := by
  induction m with
  | nil =>
    by_cases h : k = k'
    · subst h; simp [UMap.find, UMap.assign]
    · have h' : ¬ k' = k := fun e => h e.symm
      simp [UMap.find, UMap.assign, h, h']
  | cons e rest ih =>
    obtain ⟨a, b⟩ := e
    by_cases hak : a = k
    · subst hak
      by_cases hk : a = k'
      · subst hk; simp [UMap.find, UMap.assign]
      · have h' : ¬ k' = a := fun e => hk e.symm
        simp [UMap.find, UMap.assign, hk, h']
    · by_cases hk : a = k'
      · subst hk
        simp [UMap.find, UMap.assign, hak]
      · simp [UMap.find, UMap.assign, hak, hk, ih]

theorem UMap.find_isSome_iff {κ ν : Type} [DecidableEq κ] (m : UMap κ ν) (k : κ) :
    (UMap.find m k).isSome = true ↔ k ∈ UMap.keys m := by
  induction m with
  | nil => simp [UMap.find, UMap.keys]
  | cons e rest ih =>
    obtain ⟨a, b⟩ := e
    by_cases hak : a = k
    · subst hak; simp [UMap.find, UMap.keys]
    · have h' : ¬ k = a := fun e => hak e.symm
      have ih' := ih
      simp only [UMap.keys] at ih'
      simp [UMap.find, UMap.keys, hak, h', ih']

theorem UMap.mem_keys_assign {κ ν : Type} [DecidableEq κ] (m : UMap κ ν) (k : κ) (v : ν)
    (k' : κ) : k' ∈ UMap.keys (UMap.assign m k v) ↔ k' = k ∨ k' ∈ UMap.keys m := by
  rw [← UMap.find_isSome_iff, ← UMap.find_isSome_iff, UMap.find_assign]
  by_cases h : k' = k
  · simp [h]
  · simp [h]

theorem hasType_eq_true_iff (d : Private) (type_id : Nat) :
    hasType d type_id = true ↔ type_id ∈ UMap.keys d.message_types := by
  rw [← UMap.find_isSome_iff]
  simp [hasType]

theorem hasType_eq_false_iff (d : Private) (type_id : Nat) :
    hasType d type_id = false ↔ UMap.find d.message_types type_id = none := by
  cases h : UMap.find d.message_types type_id <;> simp [hasType, h]

theorem Spec.tableContains_iff (d : Private) (id : Nat) :
    Spec.tableContains d id ↔ id ∈ UMap.keys d.message_types := by
  unfold Spec.tableContains UMap.keys
  constructor
  · rintro ⟨v, hv⟩
    exact List.mem_map.mpr ⟨(id, v), hv, rfl⟩
  · intro h
    obtain ⟨⟨a, b⟩, hmem, hfst⟩ := List.mem_map.mp h
    simp only at hfst
    subst hfst
    exact ⟨b, hmem⟩

/-! ## registerMessageType -/

/-- C1: `registerMessageType(p)` computes `id = hash(p.typeName)`. When the id
table already contains `id` it returns `false` and the state, both tables
included, is exactly the one before. Otherwise it returns `true`, the id table
afterwards is the old one with `id -> p` added (every other id looks up as
before) and the reverse table is the old one with `descriptor(p) -> id` set
(every other descriptor looks up as before). -/
theorem registerMessageType_first_wins (L : Lib) (d : Private) (p : Message) :
    (hashName L p.typeName ∈ UMap.keys d.message_types →
      registerMessageType L d p = (false, d)) ∧
    (hashName L p.typeName ∉ UMap.keys d.message_types →
      (registerMessageType L d p).1 = true ∧
      (∀ k, UMap.find (registerMessageType L d p).2.message_types k =
        if k = hashName L p.typeName then some (some p) else UMap.find d.message_types k) ∧
      (∀ k, UMap.find (registerMessageType L d p).2.message_type_mapping k =
        if k = p.descriptor then some (hashName L p.typeName)
        else UMap.find d.message_type_mapping k) ∧
      (∀ k, k ∈ UMap.keys (registerMessageType L d p).2.message_types ↔
        k = hashName L p.typeName ∨ k ∈ UMap.keys d.message_types) ∧
      (∀ k, k ∈ UMap.keys (registerMessageType L d p).2.message_type_mapping ↔
        k = p.descriptor ∨ k ∈ UMap.keys d.message_type_mapping)) := by
  constructor
  · intro h
    have h' := (hasType_eq_true_iff d _).mpr h
    simp [registerMessageType, h']
  · intro h
    have h' : hasType d (hashName L p.typeName) = false := by
      cases hh : hasType d (hashName L p.typeName)
      · rfl
      · exact absurd ((hasType_eq_true_iff d _).mp hh) h
    refine ⟨?_, ?_, ?_, ?_, ?_⟩
    · simp [registerMessageType, h']
    · intro k
      simp [registerMessageType, h', UMap.find_assign]
    · intro k
      simp [registerMessageType, h', UMap.find_assign]
    · intro k
      simp [registerMessageType, h', UMap.mem_keys_assign]
    · intro k
      simp [registerMessageType, h', UMap.mem_keys_assign]

/-- Witness of C1 on the sample store: registering `otherCircle` on top of
`generatedCircle` is rejected, registering `generatedCircle` on a fresh store
is accepted. -/
theorem registerMessageType_first_wins_witness :
    registerMessageType sampleLib circleStore otherCircle = (false, circleStore) ∧
    (registerMessageType sampleLib MessageTypeStore generatedCircle).1 = true ∧
    UMap.find (registerMessageType sampleLib MessageTypeStore generatedCircle).2.message_types
      2018617584 = some (some generatedCircle) :=
  ⟨(registerMessageType_first_wins sampleLib circleStore otherCircle).1 (by decide),
   ((registerMessageType_first_wins sampleLib MessageTypeStore generatedCircle).2
      (by decide)).1,
   by
    have h := ((registerMessageType_first_wins sampleLib MessageTypeStore generatedCircle).2
      (by decide)).2.1 2018617584
    rw [h]
    decide⟩

theorem hasType_registerMessageType_self (L : Lib) (d : Private) (p : Message) :
    hasType (registerMessageType L d p).2 (hashName L p.typeName) = true := by
  cases h : hasType d (hashName L p.typeName)
  · have e : (registerMessageType L d p).2.message_types =
        UMap.assign d.message_types (hashName L p.typeName) (some p) := by
      simp [registerMessageType, h]
    simp [hasType, e, UMap.find_assign]
  · have e : (registerMessageType L d p).2 = d := by
      simp [registerMessageType, h]
    rw [e]
    exact h

/-- A registered id keeps its prototype across `registerMessageType`. -/
theorem registerMessageType_keeps_registered (L : Lib) (d : Private) (p : Message) (k : Nat)
    (hk : hasType d k = true) :
    UMap.find (registerMessageType L d p).2.message_types k = UMap.find d.message_types k := by
  cases h : hasType d (hashName L p.typeName)
  · have hne : k ≠ hashName L p.typeName := by
      intro e; rw [e, h] at hk; cases hk
    simp [registerMessageType, h, UMap.find_assign, hne]
  · simp [registerMessageType, h]

/-- C8: after `registerMessageType(p)`, whatever it returned, both
`hasType(hash(p.typeName))` and `hasType(p.typeName)` are true. -/
theorem hasType_after_registerMessageType (L : Lib) (d : Private) (p : Message) :
    hasType (registerMessageType L d p).2 (hashName L p.typeName) = true ∧
    hasTypeByName L (registerMessageType L d p).2 p.typeName = true :=
  ⟨hasType_registerMessageType_self L d p, hasType_registerMessageType_self L d p⟩

/-- C9: when `hash(n)` is not registered and `p1`, `p2` both have the
fully-qualified name `n`, `registerMessageType(p1)` returns `true`, the
following `registerMessageType(p2)` returns `false`, and the prototype stored
under `hash(n)` after both calls is `p1`. -/
theorem registerMessageType_twice (L : Lib) (d : Private) (n : String) (p1 p2 : Message)
    (hfree : hasType d (hashName L n) = false) (h1 : p1.typeName = n) (h2 : p2.typeName = n) :
    (registerMessageType L d p1).1 = true ∧
    (registerMessageType L (registerMessageType L d p1).2 p2).1 = false ∧
    UMap.find (registerMessageType L (registerMessageType L d p1).2 p2).2.message_types
      (hashName L n) = some (some p1) := by
  subst h1
  have hp2 : hashName L p2.typeName = hashName L p1.typeName := by rw [h2]
  have hreg := hasType_registerMessageType_self L d p1
  have hfind : UMap.find (registerMessageType L d p1).2.message_types
      (hashName L p1.typeName) = some (some p1) := by
    simp [registerMessageType, hfree, UMap.find_assign]
  refine ⟨by simp [registerMessageType, hfree], ?_, ?_⟩
  · rw [registerMessageType, hp2]
    simp [hreg]
  · rw [registerMessageType, hp2]
    simp [hreg, hfind]

/-- Witness of C9: `generatedCircle` then `otherCircle`, both named `Circle`,
on a fresh store. -/
theorem registerMessageType_twice_witness :
    (registerMessageType sampleLib MessageTypeStore generatedCircle).1 = true ∧
    (registerMessageType sampleLib
      (registerMessageType sampleLib MessageTypeStore generatedCircle).2 otherCircle).1 = false ∧
    UMap.find (registerMessageType sampleLib
      (registerMessageType sampleLib MessageTypeStore generatedCircle).2
      otherCircle).2.message_types (hashName sampleLib "Circle") = some (some generatedCircle) :=
  registerMessageType_twice sampleLib MessageTypeStore "Circle" generatedCircle otherCircle
    (by decide) (by decide) (by decide)

/-! ## Queries -/

theorem createMessage_of_absent (L : Lib) (d : Private) (type_id : Nat)
    (h : UMap.find d.message_types type_id = none) :
    createMessage L d type_id = some (none, d) := by
  have hh := (hasType_eq_false_iff d type_id).mpr h
  simp [createMessage, hh]

theorem createMessage_of_present (L : Lib) (d : Private) (type_id : Nat) (p : Message)
    (h : UMap.find d.message_types type_id = some (some p)) :
    createMessage L d type_id = some (some (L.New p), d) := by
  have hh : hasType d type_id = true := by simp [hasType, h]
  simp [createMessage, hh, UMap.index, h]

/-- C3: in a store whose entry for `id`, if there is one, holds a prototype
(not a null pointer), `createMessage(id)` returns normally and leaves the
store as it was; the returned pointer is empty if and only if the id table
does not contain `id`, and when the table holds prototype `p` under `id` the
result is `p->New()`. There is no error outcome. -/
theorem createMessage_empty_iff_unknown (L : Lib) (d : Private) (type_id : Nat)
    (hproto : UMap.find d.message_types type_id ≠ some none) :
    ∃ r, createMessage L d type_id = some (r, d) ∧
      (r = none ↔ type_id ∉ UMap.keys d.message_types) ∧
      (∀ p, UMap.find d.message_types type_id = some (some p) → r = some (L.New p)) := by
  cases h : UMap.find d.message_types type_id with
  | none =>
    refine ⟨none, createMessage_of_absent L d type_id h, ?_, ?_⟩
    · rw [← UMap.find_isSome_iff, h]; simp
    · intro p hp; cases hp
  | some v =>
    cases v with
    | none => exact absurd h hproto
    | some q =>
      refine ⟨some (L.New q), createMessage_of_present L d type_id q h, ?_, ?_⟩
      · rw [← UMap.find_isSome_iff, h]; simp
      · intro p hp
        cases hp
        rfl

/-- Witness of C3: `createMessage` on the store holding `generatedCircle`,
at the id of `Circle`. -/
theorem createMessage_empty_iff_unknown_witness :
    ∃ r, createMessage sampleLib circleStore 2018617584 = some (r, circleStore) ∧
      (r = none ↔ 2018617584 ∉ UMap.keys circleStore.message_types) ∧
      (∀ p, UMap.find circleStore.message_types 2018617584 = some (some p) →
        r = some (sampleLib.New p)) :=
  createMessage_empty_iff_unknown sampleLib circleStore 2018617584 (by decide)

/-- C6: for every message instance `m` and all stores `d`, `d2`,
`getMessageTypeId(m)` is `hash(m.typeName)`; the result is the same in every
store, and the store is left as it was. -/
theorem getMessageTypeId_eq_hash (L : Lib) (d d2 : Private) (m : Message) :
    (getMessageTypeId L d m).1 = hashName L m.typeName ∧
    (getMessageTypeId L d m).1 = (getMessageTypeId L d2 m).1 ∧
    (getMessageTypeId L d m).2 = d :=
  ⟨rfl, rfl, rfl⟩

/-- C7: the name-based queries are the id-based queries at `hash(name)`:
`hasType(name) = hasType(hash(name))`, which is true exactly when the id table
contains `hash(name)` (the specification's reading of both overloads), and
`createMessage(name) = createMessage(hash(name))`. -/
theorem name_queries_delegate (L : Lib) (d : Private) (name : String) :
    hasTypeByName L d name = hasType d (hashName L name) ∧
    (hasType d (hashName L name) = true ↔ Spec.tableContains d (hashName L name)) ∧
    (hasTypeByName L d name = true ↔ Spec.tableContainsName L d name) ∧
    createMessageByName L d name = createMessage L d (hashName L name) := by
  have h : hasType d (hashName L name) = true ↔ Spec.tableContains d (hashName L name) := by
    rw [Spec.tableContains_iff, hasType_eq_true_iff]
  exact ⟨rfl, h, h, rfl⟩

/-! ## registerAllMessageTypes -/

theorem registerLoop_eq_foldl (L : Lib) (fd : FileDescriptor) :
    ∀ (n i : Nat) (d : Private), fd.message_type_count - i = n →
      registerLoop L fd i d = List.foldl (registerDescriptor L) d (fd.message_types.drop i) := by
  intro n
  induction n with
  | zero =>
    intro i d h
    have hle : fd.message_types.length ≤ i := by
      simp only [FileDescriptor.message_type_count] at h
      omega
    have hnot : ¬ i < fd.message_type_count := by
      simp only [FileDescriptor.message_type_count]
      omega
    rw [registerLoop, dif_neg hnot, List.drop_eq_nil_of_le hle]
    rfl
  | succ n ih =>
    intro i d h
    have hlt : i < fd.message_type_count := by omega
    have hlt' : i < fd.message_types.length := hlt
    rw [registerLoop, dif_pos hlt, ih (i + 1) _ (by omega), List.drop_eq_getElem_cons hlt']
    rfl

theorem registerLoop_zero (L : Lib) (fd : FileDescriptor) (d : Private) :
    registerLoop L fd 0 d = List.foldl (registerDescriptor L) d fd.message_types := by
  rw [registerLoop_eq_foldl L fd _ 0 d rfl]
  rfl

/-- Closed form of `registerAllMessageTypes` with the loop written as a fold
over the message types of the file; used to evaluate the call on concrete
stores. -/
theorem registerAllMessageTypes_eq_fold (L : Lib) (d : Private) (file_name : String) :
    registerAllMessageTypes L d file_name =
      match importFile L (ensureImporter d) file_name with
      | none => none
      | some (d1, ec, descriptor) =>
        if ec.getErrorCount > 0 then some (false, d1)
        else
          match descriptor with
          | none => none
          | some fd =>
            some (true, List.foldl (registerDescriptor L) (ensureFactory d1) fd.message_types) := by
  unfold registerAllMessageTypes
  cases importFile L (ensureImporter d) file_name with
  | none => rfl
  | some r =>
    obtain ⟨d1, ec, descriptor⟩ := r
    cases descriptor with
    | none => rfl
    | some fd => simp only [registerLoop_zero]

theorem mem_keys_foldl_registerDescriptor (L : Lib) (l : List Descriptor) :
    ∀ (d : Private) (k : Nat),
      k ∈ UMap.keys (List.foldl (registerDescriptor L) d l).message_types ↔
        k ∈ UMap.keys d.message_types ∨
        ∃ desc ∈ l, k = hashName L (L.GetPrototype desc).typeName := by
  induction l with
  | nil => intro d k; simp
  | cons a rest ih =>
    intro d k
    rw [List.foldl_cons, ih]
    simp only [registerDescriptor, UMap.mem_keys_assign, List.mem_cons, exists_eq_or_imp]
    tauto

theorem ensureImporter_tables (d : Private) :
    (ensureImporter d).message_types = d.message_types ∧
    (ensureImporter d).message_type_mapping = d.message_type_mapping := by
  unfold ensureImporter
  split <;> exact ⟨rfl, rfl⟩

theorem ensureFactory_tables (d : Private) :
    (ensureFactory d).message_types = d.message_types ∧
    (ensureFactory d).message_type_mapping = d.message_type_mapping := by
  unfold ensureFactory
  split <;> exact ⟨rfl, rfl⟩

theorem importFile_tables (L : Lib) (d d1 : Private) (file_name : String)
    (ec : ErrorCollector) (fdp : Option FileDescriptor)
    (h : importFile L d file_name = some (d1, ec, fdp)) :
    d1.message_types = d.message_types ∧
    d1.message_type_mapping = d.message_type_mapping ∧
    d1.error_collector = some ec := by
  unfold importFile at h
  split at h
  · simp only [Option.some.injEq, Prod.mk.injEq] at h
    obtain ⟨h1, h2, _⟩ := h
    subst h1
    subst h2
    exact ⟨rfl, rfl, rfl⟩
  · cases h

/-- The import step cannot fail on a store that has no importer yet, nor on
one that has a collector. -/
theorem importFile_ensureImporter_isSome (L : Lib) (d : Private) (file_name : String)
    (h : d.importer = none ∨ d.error_collector ≠ none) :
    (importFile L (ensureImporter d) file_name).isSome = true := by
  cases hi : d.importer with
  | none => simp [ensureImporter, importFile, hi]
  | some imp =>
    cases hc : d.error_collector with
    | none =>
      rcases h with h | h
      · rw [hi] at h; cases h
      · exact absurd hc h
    | some ec => simp [ensureImporter, importFile, hi, hc]

theorem createMessage_fst_congr (L : Lib) (d d1 : Private) (type_id : Nat)
    (h : d1.message_types = d.message_types) :
    (createMessage L d1 type_id).map Prod.fst = (createMessage L d type_id).map Prod.fst := by
  have hh : hasType d1 type_id = hasType d type_id := by simp [hasType, h]
  unfold createMessage
  rw [hh, h]
  cases hasType d type_id
  · simp
  · cases hr : (UMap.index d.message_types type_id).1 <;> simp [hr]

/-- C4: when the import attempt leaves the collector `ec` with a non-zero
error count, `registerAllMessageTypes` returns `false`, and in the store `d1`
it leaves behind both tables are those of the store `d` before the call, so
`hasType` and `createMessage` answer the same for every id and every name. -/
theorem registerAllMessageTypes_failure (L : Lib) (d d1 : Private) (file_name : String)
    (ec : ErrorCollector) (fdp : Option FileDescriptor)
    (himp : importFile L (ensureImporter d) file_name = some (d1, ec, fdp))
    (herr : ec.getErrorCount ≠ 0) :
    registerAllMessageTypes L d file_name = some (false, d1) ∧
    d1.error_collector = some ec ∧
    d1.message_types = d.message_types ∧
    d1.message_type_mapping = d.message_type_mapping ∧
    (∀ id, hasType d1 id = hasType d id) ∧
    (∀ name, hasTypeByName L d1 name = hasTypeByName L d name) ∧
    (∀ id, (createMessage L d1 id).map Prod.fst = (createMessage L d id).map Prod.fst) ∧
    (∀ name, (createMessageByName L d1 name).map Prod.fst =
      (createMessageByName L d name).map Prod.fst) := by
  obtain ⟨ht, hm, hc⟩ := importFile_tables L _ d1 file_name ec fdp himp
  rw [(ensureImporter_tables d).1] at ht
  rw [(ensureImporter_tables d).2] at hm
  have hpos : ec.getErrorCount > 0 := Nat.pos_of_ne_zero herr
  have hty : ∀ id, hasType d1 id = hasType d id := by
    intro id; simp [hasType, ht]
  refine ⟨?_, hc, ht, hm, hty, ?_, ?_, ?_⟩
  · simp [registerAllMessageTypes, himp, hpos]
  · intro name; exact hty _
  · intro id; exact createMessage_fst_congr L d d1 id ht
  · intro name; exact createMessage_fst_congr L d d1 _ ht

/-- Witness of C4: importing the unknown file `broken.proto` into a fresh
store reports one error. -/
theorem registerAllMessageTypes_failure_witness :
    registerAllMessageTypes sampleLib MessageTypeStore "broken.proto" =
      some (false, failedStore) ∧
    failedStore.message_types = MessageTypeStore.message_types ∧
    failedStore.message_type_mapping = MessageTypeStore.message_type_mapping :=
  have h := registerAllMessageTypes_failure sampleLib MessageTypeStore failedStore
    "broken.proto" { _stream := "[broken.proto (-1,0)] File not found.\n", _error_count := 1 }
    none (by decide) (by decide)
  ⟨h.1, h.2.2.1, h.2.2.2.1⟩

/-- C5 as stated fails: in the store left by a failed import, the file
`shapes.proto`, whose compilation reports no error and yields a descriptor,
is rejected: `registerAllMessageTypes` returns `false` and registers nothing. -/
theorem registerAllMessageTypes_clean_file_rejected :
    Reachable sampleLib failedStore ∧
    failedStore.importer = some { imported := ["broken.proto"] } ∧
    sampleLib.Import { imported := ["broken.proto"] } "shapes.proto" =
      { errors := [], descriptor := some shapesFile } ∧
    (registerAllMessageTypes sampleLib failedStore "shapes.proto").map Prod.fst = some false ∧
    (registerAllMessageTypes sampleLib failedStore "shapes.proto").map
      (fun r => r.2.message_types) = some [] :=
  ⟨⟨[Call.registerAllMessageTypes "broken.proto"], by decide⟩, by decide, by decide,
    by decide, by decide⟩

/-- C5, amended: when after the import the collector's error count, which
accumulates over every import made on this store, is zero and the importer
returned the file descriptor `fd`, `registerAllMessageTypes` returns `true`
and the ids of the id table afterwards are exactly the ids present before
together with the hash of the type name of each top-level message type of
`fd` (its descriptor's full name, when prototypes carry that name). -/
theorem registerAllMessageTypes_success (L : Lib) (d d1 : Private) (file_name : String)
    (ec : ErrorCollector) (fd : FileDescriptor)
    (himp : importFile L (ensureImporter d) file_name = some (d1, ec, some fd))
    (hzero : ec.getErrorCount = 0) :
    ∃ d2, registerAllMessageTypes L d file_name = some (true, d2) ∧
      (∀ k, k ∈ UMap.keys d2.message_types ↔
        k ∈ UMap.keys d.message_types ∨
        ∃ desc ∈ fd.message_types, k = hashName L (L.GetPrototype desc).typeName) ∧
      ((∀ desc ∈ fd.message_types, (L.GetPrototype desc).typeName = desc.full_name) →
        ∀ k, k ∈ UMap.keys d2.message_types ↔
          k ∈ UMap.keys d.message_types ∨
          ∃ desc ∈ fd.message_types, k = hashName L desc.full_name) := by
  obtain ⟨ht, _, _⟩ := importFile_tables L _ d1 file_name ec (some fd) himp
  rw [(ensureImporter_tables d).1] at ht
  have hkeys : ∀ k, k ∈ UMap.keys (registerLoop L fd 0 (ensureFactory d1)).message_types ↔
      k ∈ UMap.keys d.message_types ∨
      ∃ desc ∈ fd.message_types, k = hashName L (L.GetPrototype desc).typeName := by
    intro k
    rw [registerLoop_zero, mem_keys_foldl_registerDescriptor, (ensureFactory_tables d1).1, ht]
  refine ⟨registerLoop L fd 0 (ensureFactory d1), ?_, hkeys, ?_⟩
  · simp [registerAllMessageTypes, himp, hzero]
  · intro hname k
    rw [hkeys k]
    constructor
    · rintro (h | ⟨desc, hmem, hk⟩)
      · exact Or.inl h
      · exact Or.inr ⟨desc, hmem, by rw [hk, hname desc hmem]⟩
    · rintro (h | ⟨desc, hmem, hk⟩)
      · exact Or.inl h
      · exact Or.inr ⟨desc, hmem, by rw [hk, hname desc hmem]⟩

/-- Witness of the amended C5: importing `shapes.proto` into the store that
holds `generatedCircle`. -/
theorem registerAllMessageTypes_success_witness :
    ∃ d2, registerAllMessageTypes sampleLib circleStore "shapes.proto" = some (true, d2) ∧
      (∀ k, k ∈ UMap.keys d2.message_types ↔
        k ∈ UMap.keys circleStore.message_types ∨
        ∃ desc ∈ shapesFile.message_types,
          k = hashName sampleLib (sampleLib.GetPrototype desc).typeName) ∧
      ((∀ desc ∈ shapesFile.message_types,
          (sampleLib.GetPrototype desc).typeName = desc.full_name) →
        ∀ k, k ∈ UMap.keys d2.message_types ↔
          k ∈ UMap.keys circleStore.message_types ∨
          ∃ desc ∈ shapesFile.message_types, k = hashName sampleLib desc.full_name) :=
  registerAllMessageTypes_success sampleLib circleStore
    { circleStore with
      error_collector := some {}
      source_tree := some { mappings := [("/", "/")] }
      importer := some { imported := ["shapes.proto"] } }
    "shapes.proto" {} shapesFile (by decide) (by decide)

/-- C2 at a failing input: `Circle` is registered with the compiled-in
prototype `generatedCircle`; `registerAllMessageTypes("shapes.proto")` then
returns `true` and the id of `Circle` is remapped to the factory prototype of
the file's `Circle`, a different prototype. -/
theorem registerAllMessageTypes_remaps_registered_id :
    UMap.find circleStore.message_types (hashName sampleLib "Circle") =
      some (some generatedCircle) ∧
    registerAllMessageTypes sampleLib circleStore "shapes.proto" =
      some (true, overwrittenStore) ∧
    UMap.find overwrittenStore.message_types (hashName sampleLib "Circle") =
      some (some (sampleLib.GetPrototype circleDescriptor)) ∧
    sampleLib.GetPrototype circleDescriptor ≠ generatedCircle ∧
    (registerMessageType sampleLib circleStore (sampleLib.GetPrototype circleDescriptor)).1 =
      false := by
  refine ⟨by decide, ?_, by decide, by decide, by decide⟩
  rw [registerAllMessageTypes_eq_fold]
  decide

/-- C10 at a failing input: after `registerMessageType(generatedCircle)` and a
successful `registerAllMessageTypes("shapes.proto")` the reverse table still
maps the descriptor of `generatedCircle` to the id of `Circle`, while the
prototype stored under that id has another descriptor: the tables of this
reachable store are not consistent. -/
theorem reachable_store_not_consistent :
    runCalls sampleLib MessageTypeStore
      [Call.registerMessageType generatedCircle, Call.registerAllMessageTypes "shapes.proto"] =
      some overwrittenStore ∧
    Reachable sampleLib overwrittenStore ∧
    UMap.find overwrittenStore.message_type_mapping generatedCircleDescriptor =
      some (hashName sampleLib "Circle") ∧
    UMap.find overwrittenStore.message_types (hashName sampleLib "Circle") =
      some (some (sampleLib.GetPrototype circleDescriptor)) ∧
    (sampleLib.GetPrototype circleDescriptor).descriptor ≠ generatedCircleDescriptor ∧
    ¬ tablesConsistent overwrittenStore := by
  have hrun : runCalls sampleLib MessageTypeStore
      [Call.registerMessageType generatedCircle, Call.registerAllMessageTypes "shapes.proto"] =
      some overwrittenStore := by
    simp only [runCalls, Call.apply, registerAllMessageTypes_eq_fold]
    decide
  refine ⟨hrun, ⟨_, hrun⟩, by decide, by decide, by decide, ?_⟩
  intro hcons
  obtain ⟨p, hp, hdesc⟩ := hcons.2 generatedCircleDescriptor 2018617584 (by decide)
  have hp' : UMap.find overwrittenStore.message_types 2018617584 =
      some (some (sampleLib.GetPrototype circleDescriptor)) := by decide
  rw [hp'] at hp
  cases hp
  exact absurd hdesc (by decide)

/-! ## The bulk registration is last-wins -/

theorem find_foldl_registerDescriptor (L : Lib) (l : List Descriptor) :
    ∀ (d : Private) (id : Nat),
      UMap.find (List.foldl (registerDescriptor L) d l).message_types id =
        match l.reverse.find?
            (fun desc => decide (hashName L (L.GetPrototype desc).typeName = id)) with
        | some desc => some (some (L.GetPrototype desc))
        | none => UMap.find d.message_types id := by
  induction l using List.reverseRecOn with
  | nil => intro d id; rfl
  | append_singleton l a ih =>
    intro d id
    rw [List.foldl_append, List.reverse_append]
    simp only [List.foldl_cons, List.foldl_nil, List.reverse_cons, List.reverse_nil,
      List.nil_append, List.singleton_append]
    by_cases h : hashName L (L.GetPrototype a).typeName = id
    · rw [List.find?_cons_of_pos _ (by simpa using h)]
      simp [registerDescriptor, UMap.find_assign, h]
    · rw [List.find?_cons_of_neg _ (by simpa using h)]
      have h' : ¬ id = hashName L (L.GetPrototype a).typeName := fun e => h e.symm
      rw [← ih d id]
      simp [registerDescriptor, UMap.find_assign, h']

/-- When `Spec.lastWithId` returns `desc`, it is a type of the file hashing to
`id` and no type declared after it hashes to `id`. -/
theorem Spec.lastWithId_some (L : Lib) (fd : FileDescriptor) (id : Nat) (desc : Descriptor)
    (h : Spec.lastWithId L fd id = some desc) :
    hashName L (L.GetPrototype desc).typeName = id ∧
    ∃ before after, fd.message_types = before ++ desc :: after ∧
      ∀ x ∈ after, hashName L (L.GetPrototype x).typeName ≠ id := by
  unfold Spec.lastWithId at h
  obtain ⟨hp, as, bs, hsplit, hnot⟩ := List.find?_eq_some.mp h
  refine ⟨by simpa using hp, bs.reverse, as.reverse, ?_, ?_⟩
  · have := congrArg List.reverse hsplit
    simpa using this
  · intro x hx
    have := hnot x (List.mem_reverse.mp hx)
    simpa using this

/-- When `Spec.lastWithId` returns nothing, no type of the file hashes to `id`. -/
theorem Spec.lastWithId_none (L : Lib) (fd : FileDescriptor) (id : Nat)
    (h : Spec.lastWithId L fd id = none) :
    ∀ x ∈ fd.message_types, hashName L (L.GetPrototype x).typeName ≠ id := by
  unfold Spec.lastWithId at h
  intro x hx
  have := List.find?_eq_none.mp h x (List.mem_reverse.mpr hx)
  simpa using this

/-- A type of the file hashing to `id` makes `Spec.lastWithId` return a type. -/
theorem Spec.lastWithId_of_mem (L : Lib) (fd : FileDescriptor) (id : Nat) (x : Descriptor)
    (hx : x ∈ fd.message_types) (hid : hashName L (L.GetPrototype x).typeName = id) :
    ∃ desc, Spec.lastWithId L fd id = some desc := by
  cases h : Spec.lastWithId L fd id with
  | some desc => exact ⟨desc, rfl⟩
  | none => exact absurd hid (Spec.lastWithId_none L fd id h x hx)

/-- The result of a successful bulk registration, and its id table. -/
theorem registerAllMessageTypes_of_zero (L : Lib) (d d1 : Private) (file_name : String)
    (ec : ErrorCollector) (fd : FileDescriptor)
    (himp : importFile L (ensureImporter d) file_name = some (d1, ec, some fd))
    (hzero : ec.getErrorCount = 0) :
    registerAllMessageTypes L d file_name =
      some (true, registerLoop L fd 0 (ensureFactory d1)) ∧
    ∀ id, UMap.find (registerLoop L fd 0 (ensureFactory d1)).message_types id =
      match Spec.lastWithId L fd id with
      | some desc => some (some (L.GetPrototype desc))
      | none => UMap.find d.message_types id := by
  obtain ⟨ht, _, _⟩ := importFile_tables L _ d1 file_name ec (some fd) himp
  rw [(ensureImporter_tables d).1] at ht
  refine ⟨by simp [registerAllMessageTypes, himp, hzero], ?_⟩
  intro id
  rw [registerLoop_zero, find_foldl_registerDescriptor, (ensureFactory_tables d1).1, ht]
  rfl

/-- C18: after a successful `registerAllMessageTypes`, for every id that is
the hash of the type name of some top-level message type of the file, the
prototype stored under that id is the factory prototype of the last such type
in declaration order (no type declared after it hashes to that id), whether
or not the id was registered before; every id the file does not produce keeps
what was stored under it before the call. -/
theorem registerAllMessageTypes_last_wins (L : Lib) (d d1 : Private) (file_name : String)
    (ec : ErrorCollector) (fd : FileDescriptor)
    (himp : importFile L (ensureImporter d) file_name = some (d1, ec, some fd))
    (hzero : ec.getErrorCount = 0) :
    ∃ d2, registerAllMessageTypes L d file_name = some (true, d2) ∧
      (∀ id, (∃ x ∈ fd.message_types, hashName L (L.GetPrototype x).typeName = id) →
        ∃ desc before after,
          fd.message_types = before ++ desc :: after ∧
          hashName L (L.GetPrototype desc).typeName = id ∧
          (∀ x ∈ after, hashName L (L.GetPrototype x).typeName ≠ id) ∧
          Spec.lastWithId L fd id = some desc ∧
          UMap.find d2.message_types id = some (some (L.GetPrototype desc))) ∧
      (∀ id, (∀ x ∈ fd.message_types, hashName L (L.GetPrototype x).typeName ≠ id) →
        UMap.find d2.message_types id = UMap.find d.message_types id) := by
  obtain ⟨hres, hfind⟩ := registerAllMessageTypes_of_zero L d d1 file_name ec fd himp hzero
  refine ⟨_, hres, ?_, ?_⟩
  · rintro id ⟨x, hx, hid⟩
    obtain ⟨desc, hdesc⟩ := Spec.lastWithId_of_mem L fd id x hx hid
    obtain ⟨hh, before, after, hsplit, hafter⟩ := Spec.lastWithId_some L fd id desc hdesc
    refine ⟨desc, before, after, hsplit, hh, hafter, hdesc, ?_⟩
    rw [hfind id, hdesc]
  · intro id hnone
    cases hl : Spec.lastWithId L fd id with
    | none => rw [hfind id, hl]
    | some desc =>
      obtain ⟨hh, before, after, hsplit, _⟩ := Spec.lastWithId_some L fd id desc hl
      have hmem : desc ∈ fd.message_types := by
        rw [hsplit]; simp
      exact absurd hh (hnone desc hmem)

/-- Witness of C18: importing `alias.proto`, whose types `Aa` and `BB` hash
to the same id, into a fresh store. -/
theorem registerAllMessageTypes_last_wins_witness :
    ∃ d2, registerAllMessageTypes aliasLib MessageTypeStore "alias.proto" = some (true, d2) ∧
      (∀ id, (∃ x ∈ aliasFile.message_types,
          hashName aliasLib (aliasLib.GetPrototype x).typeName = id) →
        ∃ desc before after,
          aliasFile.message_types = before ++ desc :: after ∧
          hashName aliasLib (aliasLib.GetPrototype desc).typeName = id ∧
          (∀ x ∈ after, hashName aliasLib (aliasLib.GetPrototype x).typeName ≠ id) ∧
          Spec.lastWithId aliasLib aliasFile id = some desc ∧
          UMap.find d2.message_types id = some (some (aliasLib.GetPrototype desc))) ∧
      (∀ id, (∀ x ∈ aliasFile.message_types,
          hashName aliasLib (aliasLib.GetPrototype x).typeName ≠ id) →
        UMap.find d2.message_types id = UMap.find MessageTypeStore.message_types id) :=
  registerAllMessageTypes_last_wins aliasLib MessageTypeStore
    { error_collector := some {}
      source_tree := some { mappings := [("/", "/")] }
      importer := some { imported := ["alias.proto"] } }
    "alias.proto" {} aliasFile (by decide) (by decide)

/-! ## Using the types of an imported file -/

/-- C11 as stated fails: `alias.proto` compiles with zero errors and declares
`Aa` and `BB`, whose names have the same hash; after the successful
`registerAllMessageTypes`, `createMessage("Aa")` returns an instance whose
fully-qualified name is `BB`. -/
theorem registerAllMessageTypes_alias_in_file :
    aliasLib.Import {} "alias.proto" = { errors := [], descriptor := some aliasFile } ∧
    registerAllMessageTypes aliasLib MessageTypeStore "alias.proto" = some (true, aliasStore) ∧
    aaDescriptor ∈ aliasFile.message_types ∧
    aaDescriptor.full_name = "Aa" ∧
    (aliasLib.GetPrototype aaDescriptor).typeName = "Aa" ∧
    hasTypeByName aliasLib aliasStore "Aa" = true ∧
    createMessageByName aliasLib aliasStore "Aa" =
      some (some (aliasLib.New (aliasLib.GetPrototype bbDescriptor)), aliasStore) ∧
    (aliasLib.New (aliasLib.GetPrototype bbDescriptor)).typeName = "BB" ∧
    (aliasLib.New (aliasLib.GetPrototype bbDescriptor)).typeName ≠ "Aa" := by
  refine ⟨by decide, ?_, by decide, by decide, by decide, by decide, by decide, by decide,
    by decide⟩
  rw [registerAllMessageTypes_eq_fold]
  decide

/-- C11, amended: assume factory prototypes report their descriptor's full name
and `New()` preserves the type name. After a successful
`registerAllMessageTypes`, for every top-level message type `desc` of the
file with fully-qualified name `n`: `hasType(n)` is true and `createMessage(n)`
returns a non-empty instance `m` with `getMessageTypeId(m) = hash(n)`; the
fully-qualified name of `m` is `n` when no top-level type of the file with a
different name has the same hash as `n`. -/
theorem registerAllMessageTypes_types_usable (L : Lib) (d d1 : Private) (file_name : String)
    (ec : ErrorCollector) (fd : FileDescriptor) (desc : Descriptor)
    (himp : importFile L (ensureImporter d) file_name = some (d1, ec, some fd))
    (hzero : ec.getErrorCount = 0)
    (hmem : desc ∈ fd.message_types)
    (hproto : ∀ x ∈ fd.message_types, (L.GetPrototype x).typeName = x.full_name)
    (hNew : ∀ m, (L.New m).typeName = m.typeName) :
    ∃ d2, registerAllMessageTypes L d file_name = some (true, d2) ∧
      hasTypeByName L d2 desc.full_name = true ∧
      ∃ m, createMessageByName L d2 desc.full_name = some (some m, d2) ∧
        (getMessageTypeId L d2 m).1 = hashName L desc.full_name ∧
        ((∀ x ∈ fd.message_types,
            hashName L x.full_name = hashName L desc.full_name → x.full_name = desc.full_name) →
          m.typeName = desc.full_name) := by
  obtain ⟨hres, hfind⟩ := registerAllMessageTypes_of_zero L d d1 file_name ec fd himp hzero
  have hid : hashName L (L.GetPrototype desc).typeName = hashName L desc.full_name := by
    rw [hproto desc hmem]
  obtain ⟨last, hlast⟩ := Spec.lastWithId_of_mem L fd _ desc hmem hid
  obtain ⟨hh, before, after, hsplit, _⟩ := Spec.lastWithId_some L fd _ last hlast
  have hlmem : last ∈ fd.message_types := by rw [hsplit]; simp
  rw [hproto last hlmem] at hh
  have hstored : UMap.find (registerLoop L fd 0 (ensureFactory d1)).message_types
      (hashName L desc.full_name) = some (some (L.GetPrototype last)) := by
    rw [hfind, hlast]
  refine ⟨_, hres, ?_, L.New (L.GetPrototype last), ?_, ?_, ?_⟩
  · simp [hasTypeByName, hasType, hstored]
  · exact createMessage_of_present L _ _ _ hstored
  · simp only [getMessageTypeId]
    rw [hNew, hproto last hlmem, hh]
  · intro hinj
    rw [hNew, hproto last hlmem]
    exact hinj last hlmem hh

/-- Witness of the amended C11: the type `Circle` of `shapes.proto`, imported
into the store that holds `generatedCircle`. -/
theorem registerAllMessageTypes_types_usable_witness :
    ∃ d2, registerAllMessageTypes sampleLib circleStore "shapes.proto" = some (true, d2) ∧
      hasTypeByName sampleLib d2 circleDescriptor.full_name = true ∧
      ∃ m, createMessageByName sampleLib d2 circleDescriptor.full_name = some (some m, d2) ∧
        (getMessageTypeId sampleLib d2 m).1 = hashName sampleLib circleDescriptor.full_name ∧
        ((∀ x ∈ shapesFile.message_types,
            hashName sampleLib x.full_name = hashName sampleLib circleDescriptor.full_name →
              x.full_name = circleDescriptor.full_name) →
          m.typeName = circleDescriptor.full_name) :=
  registerAllMessageTypes_types_usable sampleLib circleStore
    { circleStore with
      error_collector := some {}
      source_tree := some { mappings := [("/", "/")] }
      importer := some { imported := ["shapes.proto"] } }
    "shapes.proto" {} shapesFile circleDescriptor (by decide) (by decide) (by decide)
    (by decide) (fun _ => rfl)

/-! ## ErrorCollector -/

theorem string_join_cons (a : String) (l : List String) :
    String.join (a :: l) = a ++ String.join l := by
  apply String.ext
  simp [String.data_join, String.data_append]

theorem AddError_eq (c : ErrorCollector) (e : Diagnostic) :
    c.AddError e.filename e.line e.column e.message =
      { _stream := c._stream ++ Spec.formatEntry e, _error_count := c._error_count + 1 } := by
  simp [ErrorCollector.AddError, Spec.formatEntry, String.append_assoc]

theorem report_eq (ds : List Diagnostic) :
    ∀ c : ErrorCollector, c.report ds =
      { _stream := c._stream ++ Spec.formattedReport ds
        _error_count := c._error_count + ds.length } := by
  induction ds with
  | nil =>
    intro c
    have h : c._stream ++ "" = c._stream := by
      apply String.ext; simp [String.data_append]
    simp [ErrorCollector.report, Spec.formattedReport, String.join, h]
  | cons e rest ih =>
    intro c
    have hstep : c.report (e :: rest) =
        (c.AddError e.filename e.line e.column e.message).report rest := rfl
    rw [hstep, ih, AddError_eq]
    simp only [Spec.formattedReport, List.map_cons, string_join_cons, List.length_cons,
      String.append_assoc]
    congr 1
    omega

/-- C12: after any sequence `ds` of `AddError` calls on a fresh collector,
`getErrorCount()` is the length of the sequence and `getAllErrors()` is the
concatenation, in call order, of one line `[file (line,col)] message` plus
newline per call; a single `AddError` on any collector appends exactly its
line to the report and increases the count by exactly one. -/
theorem errorCollector_accumulates (ds : List Diagnostic) (c : ErrorCollector)
    (filename : String) (line column : Int) (message : String) :
    (ErrorCollector.report {} ds).getErrorCount = ds.length ∧
    (ErrorCollector.report {} ds).getAllErrors = Spec.formattedReport ds ∧
    (c.AddError filename line column message).getErrorCount = c.getErrorCount + 1 ∧
    (c.AddError filename line column message).getAllErrors =
      c.getAllErrors ++ ("[" ++ filename ++ " (" ++ toString line ++ "," ++ toString column
        ++ ")] " ++ message ++ "\n") := by
  refine ⟨?_, ?_, rfl, ?_⟩
  · rw [report_eq]
    simp [ErrorCollector.getErrorCount]
  · rw [report_eq]
    simp [ErrorCollector.getAllErrors]
  · simp [ErrorCollector.AddError, ErrorCollector.getAllErrors, String.append_assoc]

/-! ## Frame properties of the operations -/

theorem createMessage_state (L : Lib) (d d2 : Private) (type_id : Nat) (r : MessagePtr)
    (h : createMessage L d type_id = some (r, d2)) : d2 = d := by
  cases hf : UMap.find d.message_types type_id with
  | none =>
    rw [createMessage_of_absent L d type_id hf] at h
    simp only [Option.some.injEq, Prod.mk.injEq] at h
    exact h.2.symm
  | some v =>
    cases v with
    | none =>
      have hh : hasType d type_id = true := by simp [hasType, hf]
      simp [createMessage, hh, UMap.index, hf] at h
    | some p =>
      rw [createMessage_of_present L d type_id p hf] at h
      simp only [Option.some.injEq, Prod.mk.injEq] at h
      exact h.2.symm

theorem registerMessageType_keys_mono (L : Lib) (d : Private) (p : Message) :
    (∀ id, id ∈ UMap.keys d.message_types →
      id ∈ UMap.keys (registerMessageType L d p).2.message_types) ∧
    (∀ desc, desc ∈ UMap.keys d.message_type_mapping →
      desc ∈ UMap.keys (registerMessageType L d p).2.message_type_mapping) := by
  cases h : hasType d (hashName L p.typeName)
  · constructor
    · intro id hid
      simp [registerMessageType, h, UMap.mem_keys_assign, hid]
    · intro desc hdesc
      simp [registerMessageType, h, UMap.mem_keys_assign, hdesc]
  · simp [registerMessageType, h]

theorem registerDescriptor_keys_mono (L : Lib) (d : Private) (a : Descriptor) :
    (∀ id, id ∈ UMap.keys d.message_types →
      id ∈ UMap.keys (registerDescriptor L d a).message_types) ∧
    (∀ desc, desc ∈ UMap.keys d.message_type_mapping →
      desc ∈ UMap.keys (registerDescriptor L d a).message_type_mapping) := by
  constructor
  · intro id hid
    simp [registerDescriptor, UMap.mem_keys_assign, hid]
  · intro desc hdesc
    simp [registerDescriptor, UMap.mem_keys_assign, hdesc]

theorem foldl_registerDescriptor_keys_mono (L : Lib) (l : List Descriptor) :
    ∀ d : Private,
      (∀ id, id ∈ UMap.keys d.message_types →
        id ∈ UMap.keys (List.foldl (registerDescriptor L) d l).message_types) ∧
      (∀ desc, desc ∈ UMap.keys d.message_type_mapping →
        desc ∈ UMap.keys (List.foldl (registerDescriptor L) d l).message_type_mapping) := by
  induction l with
  | nil => intro d; exact ⟨fun _ h => h, fun _ h => h⟩
  | cons a rest ih =>
    intro d
    obtain ⟨h1, h2⟩ := registerDescriptor_keys_mono L d a
    obtain ⟨i1, i2⟩ := ih (registerDescriptor L d a)
    exact ⟨fun id hid => i1 id (h1 id hid), fun desc hdesc => i2 desc (h2 desc hdesc)⟩

theorem registerAllMessageTypes_keys_mono (L : Lib) (d d2 : Private) (file_name : String)
    (b : Bool) (h : registerAllMessageTypes L d file_name = some (b, d2)) :
    (∀ id, id ∈ UMap.keys d.message_types → id ∈ UMap.keys d2.message_types) ∧
    (∀ desc, desc ∈ UMap.keys d.message_type_mapping →
      desc ∈ UMap.keys d2.message_type_mapping) := by
  rw [registerAllMessageTypes_eq_fold] at h
  cases himp : importFile L (ensureImporter d) file_name with
  | none => rw [himp] at h; cases h
  | some r =>
    obtain ⟨d1, ec, fdp⟩ := r
    obtain ⟨ht, hm, _⟩ := importFile_tables L _ d1 file_name ec fdp himp
    rw [(ensureImporter_tables d).1] at ht
    rw [(ensureImporter_tables d).2] at hm
    rw [himp] at h
    simp only at h
    by_cases hpos : ec.getErrorCount > 0
    · rw [if_pos hpos] at h
      simp only [Option.some.injEq, Prod.mk.injEq] at h
      obtain ⟨_, rfl⟩ := h
      rw [ht, hm]
      exact ⟨fun _ h => h, fun _ h => h⟩
    · rw [if_neg hpos] at h
      cases fdp with
      | none => cases h
      | some fd =>
        simp only [Option.some.injEq, Prod.mk.injEq] at h
        obtain ⟨_, rfl⟩ := h
        obtain ⟨i1, i2⟩ := foldl_registerDescriptor_keys_mono L fd.message_types
          (ensureFactory d1)
        rw [(ensureFactory_tables d1).1, ht] at i1
        rw [(ensureFactory_tables d1).2, hm] at i2
        exact ⟨i1, i2⟩

theorem Operation.run_readOnly (L : Lib) (d d2 : Private) (op : Operation)
    (hro : op.readOnly = true) (hrun : Operation.run L d op = some d2) : d2 = d := by
  cases op with
  | hasType type_id => simp [Operation.run] at hrun; exact hrun.symm
  | hasTypeByName type_name => simp [Operation.run] at hrun; exact hrun.symm
  | createMessage type_id =>
    simp only [Operation.run, Option.map_eq_some'] at hrun
    obtain ⟨⟨r, d3⟩, hc, rfl⟩ := hrun
    exact createMessage_state L d d3 type_id r hc
  | createMessageByName type_name =>
    simp only [Operation.run, Option.map_eq_some'] at hrun
    obtain ⟨⟨r, d3⟩, hc, rfl⟩ := hrun
    exact createMessage_state L d d3 _ r hc
  | getMessageTypeId message =>
    simp [Operation.run, Arcus.getMessageTypeId] at hrun; exact hrun.symm
  | registerMessageType message_type => cases hro
  | registerAllMessageTypes file_name => cases hro
  | dumpMessageTypes => cases hro

theorem Operation.run_keys_mono (L : Lib) (d d2 : Private) (op : Operation)
    (hrun : Operation.run L d op = some d2) :
    (∀ id, id ∈ UMap.keys d.message_types → id ∈ UMap.keys d2.message_types) ∧
    (∀ desc, desc ∈ UMap.keys d.message_type_mapping →
      desc ∈ UMap.keys d2.message_type_mapping) := by
  cases op with
  | registerMessageType message_type =>
    simp only [Operation.run, Option.some.injEq] at hrun
    subst hrun
    exact registerMessageType_keys_mono L d message_type
  | registerAllMessageTypes file_name =>
    simp only [Operation.run, Option.map_eq_some'] at hrun
    obtain ⟨⟨b, d3⟩, hc, rfl⟩ := hrun
    exact registerAllMessageTypes_keys_mono L d d3 file_name b hc
  | dumpMessageTypes =>
    have hd : d2 = d := by
      simp only [Operation.run, Arcus.dumpMessageTypes] at hrun
      cases hout : dumpEntries d.message_types with
      | none => rw [hout] at hrun; cases hrun
      | some out =>
        rw [hout] at hrun
        simp only [Option.map_some', Option.some.injEq] at hrun
        exact hrun.symm
    rw [hd]; exact ⟨fun _ h => h, fun _ h => h⟩
  | hasType type_id =>
    rw [Operation.run_readOnly L d d2 (Operation.hasType type_id) rfl hrun]
    exact ⟨fun _ h => h, fun _ h => h⟩
  | hasTypeByName type_name =>
    rw [Operation.run_readOnly L d d2 (Operation.hasTypeByName type_name) rfl hrun]
    exact ⟨fun _ h => h, fun _ h => h⟩
  | createMessage type_id =>
    rw [Operation.run_readOnly L d d2 (Operation.createMessage type_id) rfl hrun]
    exact ⟨fun _ h => h, fun _ h => h⟩
  | createMessageByName type_name =>
    rw [Operation.run_readOnly L d d2 (Operation.createMessageByName type_name) rfl hrun]
    exact ⟨fun _ h => h, fun _ h => h⟩
  | getMessageTypeId message =>
    rw [Operation.run_readOnly L d d2 (Operation.getMessageTypeId message) rfl hrun]
    exact ⟨fun _ h => h, fun _ h => h⟩

/-- C13: whatever operation of the store is run, every id for which `hasType`
was true before is one for which it is true after, and every key of the id
table and of the reverse table before the operation is still a key after it:
no operation removes an entry. -/
theorem operations_never_remove (L : Lib) (d d2 : Private) (op : Operation)
    (hrun : Operation.run L d op = some d2) :
    (∀ id, hasType d id = true → hasType d2 id = true) ∧
    (∀ id, id ∈ UMap.keys d.message_types → id ∈ UMap.keys d2.message_types) ∧
    (∀ desc, desc ∈ UMap.keys d.message_type_mapping →
      desc ∈ UMap.keys d2.message_type_mapping) := by
  obtain ⟨h1, h2⟩ := Operation.run_keys_mono L d d2 op hrun
  refine ⟨?_, h1, h2⟩
  intro id hid
  exact (hasType_eq_true_iff d2 id).mpr (h1 id ((hasType_eq_true_iff d id).mp hid))

/-- Witness of C13: the bulk import of `shapes.proto` into the store that
holds `generatedCircle`. -/
theorem operations_never_remove_witness :
    (∀ id, hasType circleStore id = true → hasType overwrittenStore id = true) ∧
    (∀ id, id ∈ UMap.keys circleStore.message_types →
      id ∈ UMap.keys overwrittenStore.message_types) ∧
    (∀ desc, desc ∈ UMap.keys circleStore.message_type_mapping →
      desc ∈ UMap.keys overwrittenStore.message_type_mapping) :=
  operations_never_remove sampleLib circleStore overwrittenStore
    (Operation.registerAllMessageTypes "shapes.proto")
    (by rw [Operation.run, registerAllMessageTypes_eq_fold]; decide)

/-- C14: a read-only operation (`hasType`, `createMessage`, by id or by name,
and `getMessageTypeId`) leaves the whole store, both tables included, as it
was. In particular `createMessage` on an id that is not registered returns
the empty pointer without inserting an entry, although reading the table with
`operator[]` at that id would insert a null entry. -/
theorem read_only_operations_frame (L : Lib) (d d2 : Private) (op : Operation)
    (hro : op.readOnly = true) (hrun : Operation.run L d op = some d2) :
    d2 = d ∧
    d2.message_types = d.message_types ∧
    d2.message_type_mapping = d.message_type_mapping ∧
    (∀ id, hasType d id = false →
      createMessage L d id = some (none, d) ∧
      (UMap.index d.message_types id).2 = UMap.assign d.message_types id none) := by
  have h := Operation.run_readOnly L d d2 op hro hrun
  subst h
  refine ⟨rfl, rfl, rfl, ?_⟩
  intro id hid
  have hf := (hasType_eq_false_iff d2 id).mp hid
  refine ⟨createMessage_of_absent L d2 id hf, ?_⟩
  simp [UMap.index, hf]
  rfl

/-- Witness of C14: `createMessage` at the unregistered id 7 on the store that
holds `generatedCircle`. -/
theorem read_only_operations_frame_witness :
    circleStore = circleStore ∧
    circleStore.message_types = circleStore.message_types ∧
    circleStore.message_type_mapping = circleStore.message_type_mapping ∧
    (∀ id, hasType circleStore id = false →
      createMessage sampleLib circleStore id = some (none, circleStore) ∧
      (UMap.index circleStore.message_types id).2 =
        UMap.assign circleStore.message_types id none) :=
  read_only_operations_frame sampleLib circleStore circleStore (Operation.createMessage 7)
    (by decide) (by decide)

/-! ## Colliding names alias -/

/-- C15: let `n1` and `n2` be distinct names with the same hash, not
registered in `d`, and `p1`, `p2` prototypes named `n1`, `n2`. After
`registerMessageType(p1)` (which returns `true`): `hasType(n2)` is true
although the entry under that id is `p1`, whose name is not `n2`;
`createMessage(n2)` returns `p1->New()`, whose name is `n1` when `New()`
preserves the name; and `registerMessageType(p2)` returns `false` and leaves
the store as it was. -/
theorem colliding_names_alias (L : Lib) (d : Private) (n1 n2 : String) (p1 p2 : Message)
    (hne : n1 ≠ n2) (hcoll : hashName L n1 = hashName L n2)
    (hfree : hasType d (hashName L n1) = false)
    (h1 : p1.typeName = n1) (h2 : p2.typeName = n2)
    (hNew : (L.New p1).typeName = p1.typeName) :
    (registerMessageType L d p1).1 = true ∧
    hasTypeByName L (registerMessageType L d p1).2 n2 = true ∧
    UMap.find (registerMessageType L d p1).2.message_types (hashName L n2) = some (some p1) ∧
    p1.typeName ≠ n2 ∧
    createMessageByName L (registerMessageType L d p1).2 n2 =
      some (some (L.New p1), (registerMessageType L d p1).2) ∧
    (L.New p1).typeName = n1 ∧
    registerMessageType L (registerMessageType L d p1).2 p2 =
      (false, (registerMessageType L d p1).2) := by
  subst h1
  subst h2
  have hfind : UMap.find (registerMessageType L d p1).2.message_types
      (hashName L p2.typeName) = some (some p1) := by
    rw [← hcoll]
    simp [registerMessageType, hfree, UMap.find_assign]
  have hhas : hasType (registerMessageType L d p1).2 (hashName L p2.typeName) = true := by
    simp [hasType, hfind]
  refine ⟨by simp [registerMessageType, hfree], hhas, hfind, hne, ?_, hNew, ?_⟩
  · exact createMessage_of_present L _ _ p1 hfind
  · rw [registerMessageType]
    simp [hhas]

/-- Witness of C15: the names `Aa` and `BB` in `sampleLib`. -/
theorem colliding_names_alias_witness :
    (registerMessageType sampleLib MessageTypeStore aaMessage).1 = true ∧
    hasTypeByName sampleLib aaStore "BB" = true ∧
    UMap.find aaStore.message_types (hashName sampleLib "BB") = some (some aaMessage) ∧
    aaMessage.typeName ≠ "BB" ∧
    createMessageByName sampleLib aaStore "BB" = some (some (sampleLib.New aaMessage), aaStore) ∧
    (sampleLib.New aaMessage).typeName = "Aa" ∧
    registerMessageType sampleLib aaStore bbMessage = (false, aaStore) :=
  colliding_names_alias sampleLib MessageTypeStore "Aa" "BB" aaMessage bbMessage
    (by decide) (by decide) (by decide) (by decide) (by decide) (by decide)

/-! ## The error count is sticky -/

theorem errorCount_report (c : ErrorCollector) (ds : List Diagnostic) :
    (c.report ds).getErrorCount = c.getErrorCount + ds.length := by
  rw [report_eq]
  rfl

theorem stickyFailure_registerAllMessageTypes (L : Lib) (d : Private) (file_name : String)
    (h : stickyFailure d) :
    ∃ d2, registerAllMessageTypes L d file_name = some (false, d2) ∧
      d2.message_types = d.message_types ∧
      d2.message_type_mapping = d.message_type_mapping ∧
      stickyFailure d2 ∧ errorCount d ≤ errorCount d2 := by
  obtain ⟨himp, hpos⟩ := h
  cases hi : d.importer with
  | none => rw [hi] at himp; cases himp
  | some imp =>
    cases hc : d.error_collector with
    | none => simp [errorCount, hc] at hpos
    | some ec =>
      have hcount : errorCount d = ec.getErrorCount := by simp [errorCount, hc]
      have hens : ensureImporter d = d := by simp [ensureImporter, hi]
      have hgt : (ec.report (L.Import imp file_name).errors).getErrorCount > 0 := by
        rw [errorCount_report]
        omega
      refine ⟨{ d with
          error_collector := some (ec.report (L.Import imp file_name).errors)
          importer := some { imported := imp.imported ++ [file_name] } },
        ?_, rfl, rfl, ⟨rfl, ?_⟩, ?_⟩
      · simp only [registerAllMessageTypes, hens, importFile, hi, hc]
        rw [if_pos hgt]
      · simpa [errorCount] using hgt
      · rw [hcount]
        simp only [errorCount]
        rw [errorCount_report]
        omega

theorem stickyFailure_of_false (L : Lib) (d d1 : Private) (file_name : String)
    (h : registerAllMessageTypes L d file_name = some (false, d1)) : stickyFailure d1 := by
  unfold registerAllMessageTypes at h
  cases himp : importFile L (ensureImporter d) file_name with
  | none => rw [himp] at h; cases h
  | some r =>
    obtain ⟨d2, ec, fdp⟩ := r
    rw [himp] at h
    simp only at h
    by_cases hpos : ec.getErrorCount > 0
    · rw [if_pos hpos] at h
      simp only [Option.some.injEq, Prod.mk.injEq, true_and] at h
      subst h
      obtain ⟨_, _, hc⟩ := importFile_tables L _ d2 file_name ec fdp himp
      refine ⟨?_, by simpa [errorCount, hc] using hpos⟩
      unfold importFile at himp
      split at himp
      · simp only [Option.some.injEq, Prod.mk.injEq] at himp
        obtain ⟨hd, _, _⟩ := himp
        rw [← hd]
        rfl
      · cases himp
    · rw [if_neg hpos] at h
      cases fdp with
      | none => cases h
      | some fd => simp at h

theorem stickyFailure_run (L : Lib) (d d2 : Private) (op : Operation)
    (h : stickyFailure d) (hrun : Operation.run L d op = some d2) :
    stickyFailure d2 ∧ errorCount d ≤ errorCount d2 := by
  cases op with
  | registerMessageType message_type =>
    simp only [Operation.run, Option.some.injEq] at hrun
    subst hrun
    cases hh : hasType d (hashName L message_type.typeName) <;>
      simp [Arcus.registerMessageType, hh, stickyFailure, errorCount] <;>
      exact h
  | registerAllMessageTypes file_name =>
    obtain ⟨d3, hres, _, _, hs, hle⟩ := stickyFailure_registerAllMessageTypes L d file_name h
    simp only [Operation.run, hres, Option.map_some', Option.some.injEq] at hrun
    subst hrun
    exact ⟨hs, hle⟩
  | dumpMessageTypes =>
    have hd : d2 = d := by
      simp only [Operation.run, Arcus.dumpMessageTypes] at hrun
      cases hout : dumpEntries d.message_types with
      | none => rw [hout] at hrun; cases hrun
      | some out =>
        rw [hout] at hrun
        simp only [Option.map_some', Option.some.injEq] at hrun
        exact hrun.symm
    rw [hd]; exact ⟨h, Nat.le_refl _⟩
  | hasType type_id =>
    rw [Operation.run_readOnly L d d2 (Operation.hasType type_id) rfl hrun]
    exact ⟨h, Nat.le_refl _⟩
  | hasTypeByName type_name =>
    rw [Operation.run_readOnly L d d2 (Operation.hasTypeByName type_name) rfl hrun]
    exact ⟨h, Nat.le_refl _⟩
  | createMessage type_id =>
    rw [Operation.run_readOnly L d d2 (Operation.createMessage type_id) rfl hrun]
    exact ⟨h, Nat.le_refl _⟩
  | createMessageByName type_name =>
    rw [Operation.run_readOnly L d d2 (Operation.createMessageByName type_name) rfl hrun]
    exact ⟨h, Nat.le_refl _⟩
  | getMessageTypeId message =>
    rw [Operation.run_readOnly L d d2 (Operation.getMessageTypeId message) rfl hrun]
    exact ⟨h, Nat.le_refl _⟩

theorem stickyFailure_runOperations (L : Lib) (ops : List Operation) :
    ∀ (d d2 : Private), stickyFailure d → runOperations L d ops = some d2 →
      stickyFailure d2 ∧ errorCount d ≤ errorCount d2 := by
  induction ops with
  | nil =>
    intro d d2 h hrun
    simp only [runOperations, Option.some.injEq] at hrun
    subst hrun
    exact ⟨h, Nat.le_refl _⟩
  | cons op rest ih =>
    intro d d2 h hrun
    simp only [runOperations] at hrun
    cases hstep : Operation.run L d op with
    | none => rw [hstep] at hrun; cases hrun
    | some d1 =>
      rw [hstep] at hrun
      simp only [Option.some_bind] at hrun
      obtain ⟨hs1, hle1⟩ := stickyFailure_run L d d1 op h hstep
      obtain ⟨hs2, hle2⟩ := ih d1 d2 hs1 hrun
      exact ⟨hs2, Nat.le_trans hle1 hle2⟩

/-- C17: once a `registerAllMessageTypes` call has returned `false` (leaving
the store `d1`), then after any further operations on the store the
collector's error count is still positive and not smaller than it was, no
new collector is created (the lazy initialisation changes nothing), and every
`registerAllMessageTypes` call, for any file, returns `false` and leaves both
tables unchanged. -/
theorem registerAllMessageTypes_sticky_failure (L : Lib) (d0 d1 d : Private)
    (first_file file_name : String) (ops : List Operation)
    (hfalse : registerAllMessageTypes L d0 first_file = some (false, d1))
    (hrun : runOperations L d1 ops = some d) :
    0 < errorCount d1 ∧ errorCount d1 ≤ errorCount d ∧ ensureImporter d = d ∧
    ∃ d2, registerAllMessageTypes L d file_name = some (false, d2) ∧
      d2.message_types = d.message_types ∧
      d2.message_type_mapping = d.message_type_mapping ∧
      errorCount d ≤ errorCount d2 := by
  have hs1 := stickyFailure_of_false L d0 d1 first_file hfalse
  obtain ⟨hs, hle⟩ := stickyFailure_runOperations L ops d1 d hs1 hrun
  obtain ⟨d2, hres, ht, hm, _, hle2⟩ := stickyFailure_registerAllMessageTypes L d file_name hs
  have hens : ensureImporter d = d := by
    have hi := hs.1
    cases himp : d.importer with
    | none => rw [himp] at hi; cases hi
    | some imp => simp [ensureImporter, himp]
  exact ⟨hs1.2, hle, hens, d2, hres, ht, hm, hle2⟩

/-- Witness of C17: `broken.proto` fails on a fresh store; `generatedCircle`
is then registered; the clean file `shapes.proto` is rejected afterwards. -/
theorem registerAllMessageTypes_sticky_failure_witness :
    0 < errorCount failedStore ∧
    errorCount failedStore ≤ errorCount (registerMessageType sampleLib failedStore
      generatedCircle).2 ∧
    ensureImporter (registerMessageType sampleLib failedStore generatedCircle).2 =
      (registerMessageType sampleLib failedStore generatedCircle).2 ∧
    ∃ d2, registerAllMessageTypes sampleLib
        (registerMessageType sampleLib failedStore generatedCircle).2 "shapes.proto" =
        some (false, d2) ∧
      d2.message_types = (registerMessageType sampleLib failedStore
        generatedCircle).2.message_types ∧
      d2.message_type_mapping = (registerMessageType sampleLib failedStore
        generatedCircle).2.message_type_mapping ∧
      errorCount (registerMessageType sampleLib failedStore generatedCircle).2 ≤
        errorCount d2 :=
  registerAllMessageTypes_sticky_failure sampleLib MessageTypeStore failedStore
    (registerMessageType sampleLib failedStore generatedCircle).2
    "broken.proto" "shapes.proto" [Operation.registerMessageType generatedCircle]
    (by decide) (by decide)

/-! ## The tables are keyed by hash -/

theorem UMap.mem_of_find {κ ν : Type} [DecidableEq κ] (m : UMap κ ν) (k : κ) (v : ν)
    (h : UMap.find m k = some v) : (k, v) ∈ m := by
  induction m with
  | nil => simp [UMap.find] at h
  | cons e rest ih =>
    obtain ⟨a, b⟩ := e
    by_cases hak : a = k
    · subst hak
      simp [UMap.find] at h
      subst h
      exact List.mem_cons_self _ _
    · simp [UMap.find, hak] at h
      exact List.mem_cons_of_mem _ (ih h)

theorem UMap.mem_assign {κ ν : Type} [DecidableEq κ] (m : UMap κ ν) (k : κ) (v : ν)
    (e : κ × ν) (h : e ∈ UMap.assign m k v) : e ∈ m ∨ e = (k, v) := by
  induction m with
  | nil =>
    simp [UMap.assign] at h
    exact Or.inr h
  | cons x rest ih =>
    obtain ⟨a, b⟩ := x
    by_cases hak : a = k
    · subst hak
      simp only [UMap.assign, if_true, List.mem_cons] at h
      rcases h with h | h
      · exact Or.inr h
      · exact Or.inl (List.mem_cons_of_mem _ h)
    · simp only [UMap.assign, if_neg hak, List.mem_cons] at h
      rcases h with h | h
      · exact Or.inl (by rw [h]; exact List.mem_cons_self _ _)
      · rcases ih h with h' | h'
        · exact Or.inl (List.mem_cons_of_mem _ h')
        · exact Or.inr h'

theorem hashKeyed_registerMessageType (L : Lib) (d : Private) (p : Message)
    (hp : p.wellFormed) (h : hashKeyed L d) : hashKeyed L (registerMessageType L d p).2 := by
  cases hh : hasType d (hashName L p.typeName)
  · constructor
    · intro id ptr hmem
      have hmem' : (id, ptr) ∈
          UMap.assign d.message_types (hashName L p.typeName) (some p) := by
        simpa [registerMessageType, hh] using hmem
      rcases UMap.mem_assign _ _ _ _ hmem' with h' | h'
      · exact h.1 id ptr h'
      · simp only [Prod.mk.injEq] at h'
        exact ⟨p, h'.2, h'.1⟩
    · intro desc id hmem
      have hmem' : (desc, id) ∈
          UMap.assign d.message_type_mapping p.descriptor (hashName L p.typeName) := by
        simpa [registerMessageType, hh] using hmem
      rcases UMap.mem_assign _ _ _ _ hmem' with h' | h'
      · exact h.2 desc id h'
      · simp only [Prod.mk.injEq] at h'
        rw [h'.1, h'.2, hp]
  · simpa [registerMessageType, hh] using h

theorem hashKeyed_registerDescriptor (L : Lib) (d : Private) (a : Descriptor)
    (ha : (L.GetPrototype a).typeName = a.full_name) (h : hashKeyed L d) :
    hashKeyed L (registerDescriptor L d a) := by
  constructor
  · intro id ptr hmem
    rcases UMap.mem_assign _ _ _ _ hmem with h' | h'
    · exact h.1 id ptr h'
    · simp only [Prod.mk.injEq] at h'
      exact ⟨L.GetPrototype a, h'.2, h'.1⟩
  · intro desc id hmem
    rcases UMap.mem_assign _ _ _ _ hmem with h' | h'
    · exact h.2 desc id h'
    · simp only [Prod.mk.injEq] at h'
      rw [h'.1, h'.2, ha]

theorem hashKeyed_foldl (L : Lib) (hproto : ∀ desc, (L.GetPrototype desc).typeName = desc.full_name)
    (l : List Descriptor) :
    ∀ d : Private, hashKeyed L d → hashKeyed L (List.foldl (registerDescriptor L) d l) := by
  induction l with
  | nil => intro d h; exact h
  | cons a rest ih =>
    intro d h
    exact ih _ (hashKeyed_registerDescriptor L d a (hproto a) h)

theorem hashKeyed_of_tables (L : Lib) (d d2 : Private)
    (ht : d2.message_types = d.message_types)
    (hm : d2.message_type_mapping = d.message_type_mapping) (h : hashKeyed L d) :
    hashKeyed L d2 := by
  unfold hashKeyed
  rw [ht, hm]
  exact h

theorem hashKeyed_registerAllMessageTypes (L : Lib)
    (hproto : ∀ desc, (L.GetPrototype desc).typeName = desc.full_name)
    (d d2 : Private) (file_name : String) (b : Bool)
    (hres : registerAllMessageTypes L d file_name = some (b, d2)) (h : hashKeyed L d) :
    hashKeyed L d2 := by
  rw [registerAllMessageTypes_eq_fold] at hres
  cases himp : importFile L (ensureImporter d) file_name with
  | none => rw [himp] at hres; cases hres
  | some r =>
    obtain ⟨d1, ec, fdp⟩ := r
    obtain ⟨ht, hm, _⟩ := importFile_tables L _ d1 file_name ec fdp himp
    rw [(ensureImporter_tables d).1] at ht
    rw [(ensureImporter_tables d).2] at hm
    have h1 : hashKeyed L d1 := hashKeyed_of_tables L d d1 ht hm h
    rw [himp] at hres
    simp only at hres
    by_cases hpos : ec.getErrorCount > 0
    · rw [if_pos hpos] at hres
      simp only [Option.some.injEq, Prod.mk.injEq] at hres
      obtain ⟨_, rfl⟩ := hres
      exact h1
    · rw [if_neg hpos] at hres
      cases fdp with
      | none => cases hres
      | some fd =>
        simp only [Option.some.injEq, Prod.mk.injEq] at hres
        obtain ⟨_, rfl⟩ := hres
        exact hashKeyed_foldl L hproto fd.message_types _
          (hashKeyed_of_tables L d1 _ (ensureFactory_tables d1).1 (ensureFactory_tables d1).2 h1)

theorem hashKeyed_runCalls (L : Lib)
    (hproto : ∀ desc, (L.GetPrototype desc).typeName = desc.full_name)
    (calls : List Call) :
    ∀ (d d2 : Private), hashKeyed L d → (∀ c ∈ calls, c.wellFormed) →
      runCalls L d calls = some d2 → hashKeyed L d2 := by
  induction calls with
  | nil =>
    intro d d2 h _ hrun
    simp only [runCalls, Option.some.injEq] at hrun
    subst hrun
    exact h
  | cons c rest ih =>
    intro d d2 h hwf hrun
    simp only [runCalls] at hrun
    cases hstep : Call.apply L d c with
    | none => rw [hstep] at hrun; cases hrun
    | some d1 =>
      rw [hstep] at hrun
      simp only [Option.some_bind] at hrun
      have hrest : ∀ c' ∈ rest, c'.wellFormed :=
        fun c' hc' => hwf c' (List.mem_cons_of_mem _ hc')
      have hc : c.wellFormed := hwf c (List.mem_cons_self _ _)
      refine ih d1 d2 ?_ hrest hrun
      cases c with
      | registerMessageType message_type =>
        simp only [Call.apply, Option.some.injEq] at hstep
        subst hstep
        exact hashKeyed_registerMessageType L d message_type hc h
      | registerAllMessageTypes file_name =>
        simp only [Call.apply, Option.map_eq_some'] at hstep
        obtain ⟨⟨b, d3⟩, hres, rfl⟩ := hstep
        exact hashKeyed_registerAllMessageTypes L hproto d d3 file_name b hres h

/-- C16: let `d` be reached from the empty registry by registration calls
whose prototypes are well formed (their type name is their descriptor's full
name), with factory prototypes reporting their descriptor's full name and
`New()` preserving the type name. Then every entry `id -> p` of the id table
holds a prototype with `id = hash(p.typeName)`, every entry `desc -> id` of
the reverse table has `id = hash(desc.full_name)`, and whenever `hasType(id)`
is true `createMessage(id)` returns a non-empty instance `m` with
`getMessageTypeId(m) = id`. -/
theorem reachable_tables_hash_keyed (L : Lib) (calls : List Call) (d : Private)
    (hrun : runCalls L MessageTypeStore calls = some d)
    (hwf : ∀ c ∈ calls, c.wellFormed)
    (hproto : ∀ desc, (L.GetPrototype desc).typeName = desc.full_name)
    (hNew : ∀ m, (L.New m).typeName = m.typeName) :
    (∀ id ptr, (id, ptr) ∈ d.message_types →
      ∃ p, ptr = some p ∧ id = hashName L p.typeName) ∧
    (∀ desc id, (desc, id) ∈ d.message_type_mapping → id = hashName L desc.full_name) ∧
    (∀ id, hasType d id = true →
      ∃ m, createMessage L d id = some (some m, d) ∧ (getMessageTypeId L d m).1 = id) := by
  have h0 : hashKeyed L MessageTypeStore := by
    constructor
    · intro id ptr hmem; cases hmem
    · intro desc id hmem; cases hmem
  have h := hashKeyed_runCalls L hproto calls MessageTypeStore d h0 hwf hrun
  refine ⟨h.1, h.2, ?_⟩
  intro id hid
  cases hf : UMap.find d.message_types id with
  | none =>
    rw [(hasType_eq_false_iff d id).mpr hf] at hid
    cases hid
  | some ptr =>
    obtain ⟨p, hptr, hidp⟩ := h.1 id ptr (UMap.mem_of_find _ _ _ hf)
    subst hptr
    refine ⟨L.New p, createMessage_of_present L d id p hf, ?_⟩
    simp only [getMessageTypeId]
    rw [hNew, hidp]

/-- Witness of C16: the store reached by registering `generatedCircle` and
then importing `shapes.proto`. -/
theorem reachable_tables_hash_keyed_witness :
    (∀ id ptr, (id, ptr) ∈ overwrittenStore.message_types →
      ∃ p, ptr = some p ∧ id = hashName sampleLib p.typeName) ∧
    (∀ desc id, (desc, id) ∈ overwrittenStore.message_type_mapping →
      id = hashName sampleLib desc.full_name) ∧
    (∀ id, hasType overwrittenStore id = true →
      ∃ m, createMessage sampleLib overwrittenStore id = some (some m, overwrittenStore) ∧
        (getMessageTypeId sampleLib overwrittenStore m).1 = id) :=
  reachable_tables_hash_keyed sampleLib
    [Call.registerMessageType generatedCircle, Call.registerAllMessageTypes "shapes.proto"]
    overwrittenStore
    (by simp only [runCalls, Call.apply, registerAllMessageTypes_eq_fold]; decide)
    (by
      intro c hc
      simp only [List.mem_cons, List.mem_singleton, List.not_mem_nil, or_false] at hc
      rcases hc with rfl | rfl
      · exact (rfl : generatedCircle.typeName = generatedCircle.descriptor.full_name)
      · exact True.intro)
    (fun _ => rfl) (fun _ => rfl)

/-! ## The loop over the message types of the file -/

theorem registerLoopTrace_eq (L : Lib) (fd : FileDescriptor) :
    ∀ (n i : Nat) (d : Private) (visited : List Nat), fd.message_type_count - i = n →
      registerLoopTrace L fd i d visited =
        (registerLoop L fd i d, visited ++ List.range' i n) := by
  intro n
  induction n with
  | zero =>
    intro i d visited h
    have hnot : ¬ i < fd.message_type_count := by omega
    rw [registerLoopTrace, dif_neg hnot, registerLoop, dif_neg hnot]
    simp
  | succ n ih =>
    intro i d visited h
    have hlt : i < fd.message_type_count := by omega
    rw [registerLoopTrace, dif_pos hlt, registerLoop, dif_pos hlt,
      ih (i + 1) _ _ (by omega), List.range'_succ]
    simp

theorem registerLoopTrace_zero (L : Lib) (fd : FileDescriptor) (d : Private) :
    registerLoopTrace L fd 0 d [] =
      (registerLoop L fd 0 d, List.range fd.message_type_count) := by
  rw [registerLoopTrace_eq L fd fd.message_type_count 0 d [] rfl, List.range_eq_range']
  simp

/-- C19: suppose the importer hands back a null file descriptor only when the
collector's error count after the import is positive. Then
`registerAllMessageTypes` dereferences no null descriptor (it returns
normally); with a positive count it returns `false` without entering the
loop; with a zero count the descriptor is present, the call returns `true`
with the state the loop produces, and the loop body runs with the index
taking the values `0, 1, ..., message_type_count - 1` in this order: exactly
`message_type_count` iterations, each with `i < message_type_count`. -/
theorem registerAllMessageTypes_loop_safe (L : Lib) (d d1 : Private) (file_name : String)
    (ec : ErrorCollector) (fdp : Option FileDescriptor)
    (himp : importFile L (ensureImporter d) file_name = some (d1, ec, fdp))
    (hnull : fdp = none → 0 < ec.getErrorCount) :
    (registerAllMessageTypes L d file_name).isSome = true ∧
    (0 < ec.getErrorCount → registerAllMessageTypes L d file_name = some (false, d1)) ∧
    (ec.getErrorCount = 0 →
      ∃ fd, fdp = some fd ∧
        registerAllMessageTypes L d file_name =
          some (true, (registerLoopTrace L fd 0 (ensureFactory d1) []).1) ∧
        (registerLoopTrace L fd 0 (ensureFactory d1) []).2 =
          List.range fd.message_type_count ∧
        (registerLoopTrace L fd 0 (ensureFactory d1) []).2.length = fd.message_type_count ∧
        ∀ i ∈ (registerLoopTrace L fd 0 (ensureFactory d1) []).2,
          0 ≤ i ∧ i < fd.message_type_count) := by
  have hpos : 0 < ec.getErrorCount →
      registerAllMessageTypes L d file_name = some (false, d1) := by
    intro h
    simp [registerAllMessageTypes, himp, h]
  have hzero : ec.getErrorCount = 0 →
      ∃ fd, fdp = some fd ∧
        registerAllMessageTypes L d file_name =
          some (true, (registerLoopTrace L fd 0 (ensureFactory d1) []).1) ∧
        (registerLoopTrace L fd 0 (ensureFactory d1) []).2 =
          List.range fd.message_type_count ∧
        (registerLoopTrace L fd 0 (ensureFactory d1) []).2.length = fd.message_type_count ∧
        ∀ i ∈ (registerLoopTrace L fd 0 (ensureFactory d1) []).2,
          0 ≤ i ∧ i < fd.message_type_count := by
    intro h
    cases fdp with
    | none =>
      have := hnull rfl
      omega
    | some fd =>
      refine ⟨fd, rfl, ?_, ?_, ?_, ?_⟩
      · rw [registerLoopTrace_zero]
        simp [registerAllMessageTypes, himp, h]
      · rw [registerLoopTrace_zero]
      · rw [registerLoopTrace_zero]
        simp
      · intro i hi
        rw [registerLoopTrace_zero] at hi
        exact ⟨Nat.zero_le _, List.mem_range.mp hi⟩
  refine ⟨?_, hpos, hzero⟩
  by_cases h : 0 < ec.getErrorCount
  · rw [hpos h]; rfl
  · obtain ⟨fd, _, hres, _⟩ := hzero (by omega)
    rw [hres]; rfl

/-- Witness of C19: the import of `shapes.proto` into a fresh store, which
returns a descriptor with two message types. -/
theorem registerAllMessageTypes_loop_safe_witness :
    (registerAllMessageTypes sampleLib MessageTypeStore "shapes.proto").isSome = true ∧
    (registerLoopTrace sampleLib shapesFile 0
      (ensureFactory
        { error_collector := some {}
          source_tree := some { mappings := [("/", "/")] }
          importer := some { imported := ["shapes.proto"] } }) []).2 = [0, 1] :=
  have h := registerAllMessageTypes_loop_safe sampleLib MessageTypeStore
    { error_collector := some {}
      source_tree := some { mappings := [("/", "/")] }
      importer := some { imported := ["shapes.proto"] } }
    "shapes.proto" {} (some shapesFile) (by decide) (by intro h; cases h)
  ⟨h.1, by
    obtain ⟨fd, hfd, _, htrace, _⟩ := h.2.2 (by decide)
    cases hfd
    rw [htrace]
    decide⟩

end Arcus
